import Mathlib

/-!
# Order service: order placement and status workflow

A shallow embedding of `src/app/order-service/src/routes/orders.js`
(`router.post("/")`, `router.patch("/:id/status")`, `router.delete("/:id")`
and the helpers `getProductDetails`, `updateProductStock`) together with the
table definitions of `src/app/order-service/src/config/database.js`, and of
the stock route `router.patch("/:id/stock")` of
`src/app/product-service/src/routes/products.js`, and of the cart operations
of `src/app/frontend/src/App.js`.

Conventions of the embedding:

* The handlers are `async` functions that talk to two collaborators, the
  MySQL store and the product service.  Each handler is a pure function from
  the store contents, the request and an environment `Env` (the answers of
  the collaborators) to a `Result`: the HTTP response, the store contents
  afterwards, and the ordered list of effects (`Event`) it performed.
* JavaScript numbers are kept abstract: the carrier `N` and the operations
  the handlers use on it (`*`, `+=`, the literal `0`, the conversion MySQL
  applies when a value is written to a `DECIMAL(10, 2)` column) are the
  fields of `NumOps`.  Every theorem holds for every choice of them.
* The stock route receives `quantity` as the value of the body (`JsValue`, a
  number or a string), since its check `isInt()` converts nothing; `+` and
  `<` on it are those of JavaScript.  Column `stock` is `INT`: a value that
  MySQL in strict mode, its default, refuses makes the `UPDATE` fail.
* `created_at` / `updated_at` columns and log lines are left out.
-/

namespace OrderService

/-! ## Data model -/

/-- The arithmetic the handlers use on JavaScript numbers: the literal `0`,
`product.price * item.quantity`, `totalAmount += itemTotal`, and the conversion
applied by the store to a value written into a `DECIMAL(10, 2)` column. -/
structure NumOps (N : Type) where
  zero : N
  mul : N → Int → N
  add : N → N → N
  toDecimal : N → N

/-- One element of `req.body.items`. -/
structure BasketLine where
  product_id : String
  quantity : Int
deriving DecidableEq, Repr

/-- The body of `POST /api/orders`. -/
structure OrderRequest where
  customer_name : String
  customer_email : String
  shipping_address : String
  items : List BasketLine
deriving DecidableEq, Repr

/-- The fields of a product document (`response.data` of
`GET /api/products/:id`) that the order service reads. -/
structure Product (N : Type) where
  name : String
  price : N
  stock : Int
deriving DecidableEq, Repr

/-- A row of table `order_items` (also the in-memory objects pushed onto
`orderItems`). -/
structure OrderItem (N : Type) where
  id : String
  order_id : String
  product_id : String
  product_name : String
  quantity : Int
  unit_price : N
  total_price : N
deriving DecidableEq, Repr

/-- A row of table `orders`. -/
structure OrderRow (N : Type) where
  id : String
  customer_name : String
  customer_email : String
  shipping_address : String
  total_amount : N
  status : String
deriving DecidableEq, Repr

/-- The JSON document sent back for an order: the row with `items` attached. -/
structure OrderView (N : Type) where
  order : OrderRow N
  items : List (OrderItem N)
deriving DecidableEq, Repr

/-- Committed contents of the order store. -/
structure Db (N : Type) where
  orders : List (OrderRow N)
  items : List (OrderItem N)
deriving DecidableEq, Repr

/-- What `axios.get` on `/api/products/:id` can do: resolve with the document,
or throw because the service answered 404, or throw because it could not be
reached. -/
inductive GetOutcome (N : Type) where
  | ok (data : Product N)
  | notFound
  | unreachable
deriving DecidableEq, Repr

/-- What `axios.patch` on `/api/products/:id/stock` can do: resolve, or throw
because the service rejected the adjustment, or throw because it could not be
reached. -/
inductive PatchOutcome where
  | ok
  | rejected
  | unreachable
deriving DecidableEq, Repr

/-- The collaborators of one request.

* `getItem id`: the product service's answer to `GET /api/products/id`; the
  catalogue is taken not to change while one request is handled.
* `adjust n id q`: its answer to the `n`-th (0-based) stock call of the
  request, `PATCH /api/products/id/stock` with body `quantity: q`.
* `insertFails n`: the store rejects the `n`-th `INSERT` of the request for a
  reason other than a duplicate primary key (`0` is the order row, `k + 1` the
  `k`-th line item).
* `isEmail`, `trim`: the `express-validator` validator and sanitizer. -/
structure Env (N : Type) where
  getItem : String → GetOutcome N
  adjust : Nat → String → Int → PatchOutcome
  insertFails : Nat → Bool
  isEmail : String → Bool
  trim : String → String

/-- Effects of a handler, in the order they happen. `patch id q accepted` is a
stock call with body `quantity: q` and whether it resolved. -/
inductive Event where
  | beginTransaction
  | get (product_id : String)
  | insertOrder (id : String)
  | insertItem (id : String) (product_id : String) (quantity : Int)
  | patch (product_id : String) (quantity : Int) (accepted : Bool)
  | commit
  | rollback
  | updateStatus (id : String) (status : String)
  | deleteOrder (id : String)
deriving DecidableEq, Repr

/-- The HTTP response: `201` with the order, `200` with the order, `400` with
the validator's `errors` array, a status code with an `error` message, or
`200` with a `message`. -/
inductive Response (N : Type) where
  | created (order : OrderView N)
  | ok (order : OrderView N)
  | invalid
  | error (status : Nat) (message : String)
  | message (text : String)
deriving DecidableEq, Repr

/-- Outcome of a handler run. -/
structure Result (N : Type) where
  response : Response N
  db : Db N
  log : List Event
deriving DecidableEq, Repr

/-! ## Helpers of `orders.js` -/

/-- `getProductDetails`: the document, or `null` when `axios.get` throws. -/
def getProductDetails {N : Type} (env : Env N) (productId : String) : Option (Product N) :=
  match env.getItem productId with
  | .ok data => some data
  | .notFound => none
  | .unreachable => none

/-- `updateProductStock`: sends `quantity: -quantity` and returns `true`, or
`false` when `axios.patch` throws. The first component is the call made. -/
def updateProductStock {N : Type} (env : Env N) (call : Nat) (productId : String)
    (quantity : Int) : Event × Bool :=
  match env.adjust call productId (-quantity) with
  | .ok => (Event.patch productId (-quantity) true, true)
  | .rejected => (Event.patch productId (-quantity) false, false)
  | .unreachable => (Event.patch productId (-quantity) false, false)

/-- The stock calls `(product id, quantity sent)` among the effects. -/
def stockCalls : List Event → List (String × Int)
  | [] => []
  | Event.patch productId quantity _ :: rest => (productId, quantity) :: stockCalls rest
  | _ :: rest => stockCalls rest

/-! ## `POST /` -/

/-- The validation chain of `router.post("/")`. -/
def validOrderRequest {N : Type} (env : Env N) (req : OrderRequest) : Bool :=
  req.customer_name != "" &&
  env.isEmail req.customer_email &&
  req.shipping_address != "" &&
  decide (1 ≤ req.items.length) &&
  req.items.all (fun item => item.product_id != "" && decide (1 ≤ item.quantity))

/-- Result of the loop "Validate products and calculate total". -/
inductive Checked (N : Type) where
  | rejected (response : Response N)
  | passed (totalAmount : N) (orderItems : List (OrderItem N))
deriving DecidableEq, Repr

/-- The loop's outcome together with its effects. -/
structure CheckRun (N : Type) where
  log : List Event
  outcome : Checked N

/-- The loop `for (const item of items)` of lines 185-214. `k` counts the
lines already handled, `totalAmount` and `orderItems` are the loop's
variables; `uuid (k + 1)` is the identifier drawn for line `k`. -/
def checkItems {N : Type} (A : NumOps N) (env : Env N) (orderId : String) (uuid : Nat → String) :
    List BasketLine → Nat → N → List (OrderItem N) → CheckRun N
  | [], _, totalAmount, orderItems => { log := [], outcome := .passed totalAmount orderItems }
  | item :: rest, k, totalAmount, orderItems =>
    match getProductDetails env item.product_id with
    | none =>
      { log := [Event.get item.product_id, Event.rollback]
        outcome := .rejected (.error 400 ("Product not found: " ++ item.product_id)) }
    | some product =>
      if product.stock < item.quantity then
        { log := [Event.get item.product_id, Event.rollback]
          outcome := .rejected (.error 400 ("Insufficient stock for product: " ++ product.name)) }
      else
        let itemTotal := A.mul product.price item.quantity
        let run := checkItems A env orderId uuid rest (k + 1) (A.add totalAmount itemTotal)
          (orderItems ++ [{ id := uuid (k + 1)
                            order_id := orderId
                            product_id := item.product_id
                            product_name := product.name
                            quantity := item.quantity
                            unit_price := product.price
                            total_price := itemTotal }])
        { log := Event.get item.product_id :: run.log, outcome := run.outcome }

/-- Whether the store rejects the `k`-th `INSERT` of the request (`0`: the
order row, `j + 1`: line item `j`): `env.insertFails`, or the `PRIMARY KEY` of
the table is already taken, by a committed row or by a row inserted earlier
in the same transaction (those carry `uuid 1`, ..., `uuid j`). -/
def insertRejected {N : Type} (env : Env N) (db : Db N) (uuid : Nat → String) : Nat → Bool
  | 0 => env.insertFails 0 || db.orders.any (fun o => o.id == uuid 0)
  | j + 1 =>
    env.insertFails (j + 1) || db.items.any (fun i => i.id == uuid (j + 1)) ||
      (List.range j).any (fun i => uuid (i + 1) == uuid (j + 1))

/-- The row that an `INSERT INTO order_items` stores for an in-memory item:
the two `DECIMAL(10, 2)` columns are converted. -/
def storeItem {N : Type} (A : NumOps N) (item : OrderItem N) : OrderItem N :=
  { item with unit_price := A.toDecimal item.unit_price
              total_price := A.toDecimal item.total_price }

/-- Outcome of the loop "Create order items": its effects, the rows inserted
in the open transaction, and whether it ran to the end. -/
structure InsertRun (N : Type) where
  log : List Event
  rows : List (OrderItem N)
  completed : Bool

/-- The loop `for (const item of orderItems)` of lines 224-241: insert the
row, then call `updateProductStock` (whose result is not looked at). A
rejected `INSERT` throws and ends the loop. -/
def insertItems {N : Type} (A : NumOps N) (env : Env N) (db : Db N) (uuid : Nat → String) :
    List (OrderItem N) → Nat → InsertRun N
  | [], _ => { log := [], rows := [], completed := true }
  | item :: rest, k =>
    if insertRejected env db uuid (k + 1) then
      { log := [], rows := [], completed := false }
    else
      let call := updateProductStock env k item.product_id item.quantity
      let run := insertItems A env db uuid rest (k + 1)
      { log := Event.insertItem item.id item.product_id item.quantity :: call.1 :: run.log
        rows := storeItem A item :: run.rows
        completed := run.completed }

/-- The handler of `POST /` behind its validation chain.
`uuid n` is the result of the `n`-th call of `uuidv4()`. -/
def placeOrder {N : Type} (A : NumOps N) (env : Env N) (db : Db N) (req : OrderRequest)
    (uuid : Nat → String) : Result N :=
  if validOrderRequest env req then
    let orderId := uuid 0
    let checked := checkItems A env orderId uuid req.items 0 A.zero []
    match checked.outcome with
    | .rejected response =>
      { response := response, db := db, log := Event.beginTransaction :: checked.log }
    | .passed totalAmount orderItems =>
      if insertRejected env db uuid 0 then
        { response := .error 500 "Failed to create order"
          db := db
          log := Event.beginTransaction :: checked.log ++ [Event.rollback] }
      else
        let orderRow : OrderRow N :=
          { id := orderId
            customer_name := env.trim req.customer_name
            customer_email := req.customer_email
            shipping_address := req.shipping_address
            total_amount := A.toDecimal totalAmount
            status := "pending" }
        let run := insertItems A env db uuid orderItems 0
        if run.completed then
          let committed : Db N :=
            { orders := db.orders ++ [orderRow], items := db.items ++ run.rows }
          let log := Event.beginTransaction :: checked.log ++ Event.insertOrder orderId :: run.log
            ++ [Event.commit]
          match (committed.orders.filter (fun o => o.id == orderId)).head? with
          | some newOrder =>
            { response := .created { order := newOrder, items := orderItems }
              db := committed
              log := log }
          | none =>
            { response := .error 500 "Failed to create order"
              db := committed
              log := log ++ [Event.rollback] }
        else
          { response := .error 500 "Failed to create order"
            db := db
            log := Event.beginTransaction :: checked.log ++ Event.insertOrder orderId :: run.log
              ++ [Event.rollback] }
  else
    { response := .invalid, db := db, log := [] }

/-! ## `PATCH /:id/status` -/

/-- The `isIn([...])` validator of the `status` field. -/
def validStatus (status : String) : Bool :=
  ["pending", "confirmed", "processing", "shipped", "delivered", "cancelled"].contains status

/-- Outcome of the restoration loop: its effects and whether it ran to the
end. -/
structure RestoreRun where
  log : List Event
  completed : Bool
deriving DecidableEq, Repr

/-- The loop `for (const item of items)` of lines 300-307: a bare
`axios.patch` with `quantity: item.quantity`; when it throws the loop ends
and control passes to the handler's `catch`. -/
def restoreStock {N : Type} (env : Env N) : List (OrderItem N) → Nat → RestoreRun
  | [], _ => { log := [], completed := true }
  | item :: rest, k =>
    match env.adjust k item.product_id item.quantity with
    | .ok =>
      let run := restoreStock env rest (k + 1)
      { log := Event.patch item.product_id item.quantity true :: run.log
        completed := run.completed }
    | .rejected => { log := [Event.patch item.product_id item.quantity false], completed := false }
    | .unreachable =>
      { log := [Event.patch item.product_id item.quantity false], completed := false }

/-- `UPDATE orders SET status = ? WHERE id = ?`. -/
def setStatus {N : Type} (db : Db N) (id status : String) : Db N :=
  { db with orders := db.orders.map (fun o => if o.id == id then { o with status := status } else o) }

/-- The handler of `PATCH /:id/status` behind its validation chain. -/
def updateStatus {N : Type} (env : Env N) (db : Db N) (id status : String) : Result N :=
  if id != "" && validStatus status then
    match (db.orders.filter (fun o => o.id == id)).head? with
    | none => { response := .error 404 "Order not found", db := db, log := [] }
    | some existing =>
      let run : RestoreRun :=
        if status == "cancelled" && existing.status != "cancelled" then
          restoreStock env (db.items.filter (fun i => i.order_id == id)) 0
        else
          { log := [], completed := true }
      if run.completed then
        let updated := setStatus db id status
        match (updated.orders.filter (fun o => o.id == id)).head? with
        | some updatedOrder =>
          { response := .ok { order := updatedOrder
                              items := updated.items.filter (fun i => i.order_id == id) }
            db := updated
            log := run.log ++ [Event.updateStatus id status] }
        | none =>
          { response := .error 500 "Failed to update order status"
            db := updated
            log := run.log ++ [Event.updateStatus id status] }
      else
        { response := .error 500 "Failed to update order status", db := db, log := run.log }
  else
    { response := .invalid, db := db, log := [] }

/-! ## `DELETE /:id` -/

/-- The loop `for (const item of items)` of lines 365-367:
`updateProductStock(item.product_id, -item.quantity)` for every line item,
whatever the earlier calls returned. `k` counts the calls already made. -/
def restoreOnDelete {N : Type} (env : Env N) : List (OrderItem N) → Nat → List Event
  | [], _ => []
  | item :: rest, k =>
    (updateProductStock env k item.product_id (-item.quantity)).1 :: restoreOnDelete env rest (k + 1)

/-- `DELETE FROM orders WHERE id = ?`; the foreign key of `order_items` is
declared `ON DELETE CASCADE`, so the line items of the order go with it. -/
def deleteRows {N : Type} (db : Db N) (id : String) : Db N :=
  { orders := db.orders.filter (fun o => !(o.id == id))
    items := db.items.filter (fun i => !(i.order_id == id)) }

/-- The handler of `DELETE /:id` behind its validation chain. -/
def deleteOrder {N : Type} (env : Env N) (db : Db N) (id : String) : Result N :=
  if id != "" then
    match (db.orders.filter (fun o => o.id == id)).head? with
    | none => { response := .error 404 "Order not found", db := db, log := [] }
    | some existing =>
      if existing.status != "pending" then
        { response := .error 400 "Only pending orders can be deleted", db := db, log := [] }
      else
        let items := db.items.filter (fun i => i.order_id == id)
        { response := .message "Order deleted successfully"
          db := deleteRows db id
          log := restoreOnDelete env items 0 ++ [Event.deleteOrder id] }
  else
    { response := .invalid, db := db, log := [] }

/-! ## Request bodies as they arrive -/

/-- A value found under `items.*.quantity`: `integer n` is a value that the
validator `isInt` reads as the integer `n`, `other` is any value it refuses
(a fraction, text, `null`, a missing field). -/
inductive QuantityValue where
  | integer (n : Int)
  | other
deriving DecidableEq, Repr

/-- One element of `req.body.items` before validation. -/
structure RawLine where
  product_id : String
  quantity : QuantityValue
deriving DecidableEq, Repr

/-- The body of `POST /api/orders` before validation. -/
structure RawOrderRequest where
  customer_name : String
  customer_email : String
  shipping_address : String
  items : List RawLine
deriving DecidableEq, Repr

/-- The integer that `isInt` finds in a quantity, if any. -/
def readQuantity : QuantityValue → Option Int
  | .integer n => some n
  | .other => none

/-- The lines of a body when `isInt` accepts every quantity. -/
def readItems : List RawLine → Option (List BasketLine)
  | [] => some []
  | line :: rest =>
    match readQuantity line.quantity, readItems rest with
    | some quantity, some lines => some ({ product_id := line.product_id, quantity := quantity } :: lines)
    | _, _ => none

/-- The route `POST /` on a body as it arrives: a quantity that `isInt`
refuses ends the request in `validate`; otherwise the remaining checks and
the handler run as in `placeOrder`. -/
def postOrder {N : Type} (A : NumOps N) (env : Env N) (db : Db N) (body : RawOrderRequest)
    (uuid : Nat → String) : Result N :=
  match readItems body.items with
  | none => { response := .invalid, db := db, log := [] }
  | some items =>
    placeOrder A env db
      { customer_name := body.customer_name
        customer_email := body.customer_email
        shipping_address := body.shipping_address
        items := items } uuid

/-! ## Product service: `PATCH /:id/stock` -/

/-- The columns of table `products` that the stock route reads or writes; the
other columns are carried along unchanged. -/
structure ProductRow where
  id : String
  stock : Int
deriving DecidableEq, Repr

/-- The answer of the stock route: `200` with the updated row, `400` with the
validator's `errors` array, or a status code with an `error` message. -/
inductive StockResponse where
  | ok (product : ProductRow)
  | invalid
  | error (status : Nat) (message : String)
deriving DecidableEq, Repr

/-- Outcome of the stock route: the answer and the table afterwards. -/
structure StockResult where
  response : StockResponse
  products : List ProductRow
deriving DecidableEq, Repr

/-- `UPDATE products SET stock = ? WHERE id = ?`. -/
def setStock (products : List ProductRow) (id : String) (newStock : Int) : List ProductRow :=
  products.map (fun p => if p.id == id then { p with stock := newStock } else p)

/-- A value as the stock route holds it: a number of integer value, or a
string. The `quantity` of the body is one: `isInt()` checks it and leaves it
as it came, no `toInt()` follows, so a JSON string reaches the handler as a
string. -/
inductive JsValue where
  | number (n : Int)
  | text (s : String)
deriving DecidableEq, Repr

/-- The number that a run of decimal digits denotes; `none` for the empty run
and for a run holding another character. -/
def digitsValue : List Char → Option Nat
  | [] => none
  | c :: cs =>
    (c :: cs).foldl
      (fun acc ch =>
        match acc with
        | some v => if ch.isDigit then some (10 * v + (ch.toNat - '0'.toNat)) else none
        | none => none)
      (some 0)

/-- The integer that a string denotes when it is an optional sign followed by
decimal digits, and `none` for a string of another form. This is the form
that `isInt()` accepts, and for strings over digits and signs it is also the
form that JS converts to a number in a comparison (another form gives `NaN`)
and that MySQL accepts for an `INT` column. -/
def readInt (t : String) : Option Int :=
  match t.data with
  | '-' :: ds => (digitsValue ds).map (fun v => -(v : Int))
  | '+' :: ds => (digitsValue ds).map (fun v => (v : Int))
  | ds => (digitsValue ds).map (fun v => (v : Int))

/-- The check `body("quantity").isInt()`: the value is put in string form and
must be an optional sign followed by digits. A number of integer value has
this form below `10 ^ 21`, from where JS writes it with an exponent. Values
of other kinds (a fraction, `null`, an object) are refused as a string of
another form is. -/
def JsValue.isInt : JsValue → Bool
  | .number n => decide (n.natAbs < 10 ^ 21)
  | .text s => (readInt s).isSome

/-- JS `stock + quantity`, `stock` being the number of the row: the sum for a
number, and for a string the decimal form of `stock` followed by the string. -/
def jsAdd (stock : Int) : JsValue → JsValue
  | .number n => .number (stock + n)
  | .text s => .text (toString stock ++ s)

/-- JS `newStock < 0`: a string is converted to a number first, and the
comparison is false for `NaN`. -/
def JsValue.lessThanZero : JsValue → Bool
  | .number n => decide (n < 0)
  | .text t =>
    match readInt t with
    | some n => decide (n < 0)
    | none => false

/-- Whether an integer is in the range of a MySQL `INT` column. -/
def fitsInt (n : Int) : Bool :=
  decide (-2147483648 ≤ n) && decide (n ≤ 2147483647)

/-- What column `stock INT` holds after `UPDATE products SET stock = ?` with
the value: the integer itself, read from the string in the case of a string.
`none` when the statement fails, as it does in MySQL's strict mode, the
default of the server, for an integer out of the range of `INT` and for a
string that is not an integer; the repository does not set `sql_mode`. -/
def JsValue.columnValue : JsValue → Option Int
  | .number n => if fitsInt n then some n else none
  | .text t =>
    match readInt t with
    | some n => if fitsInt n then some n else none
    | none => none

/-- The route `PATCH /:id/stock`: the validation chain, then the handler;
`quantity` is the value of the body. A failing `UPDATE` is caught and
answered 500, the row staying as it was. -/
def patchStock (products : List ProductRow) (id : String) (quantity : JsValue) : StockResult :=
  if id != "" && quantity.isInt then
    match (products.filter (fun p => p.id == id)).head? with
    | none => { response := .error 404 "Product not found", products := products }
    | some existing =>
      let newStock := jsAdd existing.stock quantity
      if newStock.lessThanZero then
        { response := .error 400 "Insufficient stock", products := products }
      else
        match newStock.columnValue with
        | none => { response := .error 500 "Failed to update stock", products := products }
        | some stored =>
          let updated := setStock products id stored
          match (updated.filter (fun p => p.id == id)).head? with
          | some updatedProduct => { response := .ok updatedProduct, products := updated }
          | none => { response := .error 500 "Failed to update stock", products := updated }
  else
    { response := .invalid, products := products }

/-- What `axios.patch` makes of the answer: it resolves on `200` and throws on
every other status. -/
def StockResponse.accepted : StockResponse → Bool
  | .ok _ => true
  | .invalid => false
  | .error _ _ => false

/-- The stock that `GET /:id` reports for a product: the `stock` of the first
row selected, if there is one. -/
def stockOf (products : List ProductRow) (id : String) : Option Int :=
  ((products.filter (fun p => p.id == id)).head?).map (fun p => p.stock)

/-- The table after the stock route has served the calls `(id, quantity)` of
the order service one after the other; the order service sends each quantity
as a JSON number. -/
def applyCalls : List ProductRow → List (String × Int) → List ProductRow
  | products, [] => products
  | products, call :: rest =>
    applyCalls (patchStock products call.1 (.number call.2)).products rest

/-- Whether the stock route answers `200` to each of the calls of the order
service, served one after the other. -/
def allAccepted : List ProductRow → List (String × Int) → Bool
  | _, [] => true
  | products, call :: rest =>
    (patchStock products call.1 (.number call.2)).response.accepted &&
      allAccepted (patchStock products call.1 (.number call.2)).products rest

/-- The table after the stock route has served the requests `(id, quantity)`
of any client one after the other, `quantity` being the value of the body. -/
def serveRequests : List ProductRow → List (String × JsValue) → List ProductRow
  | products, [] => products
  | products, request :: rest =>
    serveRequests (patchStock products request.1 request.2).products rest

/-- The sum of the quantities that the calls carry for one product. -/
def netQuantity (id : String) : List (String × Int) → Int
  | [] => 0
  | call :: rest => (if call.1 = id then call.2 else 0) + netQuantity id rest

/-! ## Vocabulary of the statements -/

/-- The line item built for a basket line: parent reference, requested item and
quantity, name and price as the product service reported them. -/
def Snapshot {N : Type} (A : NumOps N) (env : Env N) (orderId : String) (line : BasketLine)
    (item : OrderItem N) : Prop :=
  item.order_id = orderId ∧ item.product_id = line.product_id ∧ item.quantity = line.quantity ∧
    ∃ p, env.getItem line.product_id = .ok p ∧ ¬ p.stock < line.quantity ∧
      item.product_name = p.name ∧ item.unit_price = p.price ∧
      item.total_price = A.mul p.price line.quantity

/-! ## Sample data -/

/-- Exact arithmetic on amounts counted in cents. -/
def centOps : NumOps Int :=
  { zero := 0, mul := fun price quantity => price * quantity, add := fun a b => a + b
    toDecimal := fun a => a }

/-- Identifiers `id-0`, `id-1`, `id-2`, then `id-n`. -/
def sampleUuid : Nat → String
  | 0 => "id-0"
  | 1 => "id-1"
  | 2 => "id-2"
  | _ => "id-n"

/-- A product service that knows `prod-001` (price 99.99, the given stock)
and `prod-002` (price 5.00, stock 10) and accepts every stock call, with a
store that accepts every insert. The sample names carry no surrounding
blanks, so `trim` leaves them as they are. -/
def sampleEnv (stock : Int) : Env Int :=
  { getItem := fun id =>
      if id == "prod-001" then .ok { name := "Laptop", price := 9999, stock := stock }
      else if id == "prod-002" then .ok { name := "Mouse", price := 500, stock := 10 }
      else .notFound
    adjust := fun _ _ _ => .ok
    insertFails := fun _ => false
    isEmail := fun s => s.data.contains '@'
    trim := fun s => s }

/-- The empty store. -/
def emptyDb : Db Int := { orders := [], items := [] }

/-- A request for the given basket. -/
def sampleRequest (items : List BasketLine) : OrderRequest :=
  { customer_name := "Ada", customer_email := "ada@example.org"
    shipping_address := "1 Main St", items := items }

/-- A store rejecting the second line-item insert of a request. -/
def secondItemRejectedEnv : Env Int :=
  { sampleEnv 50 with insertFails := fun n => n == 2 }

/-- A product service rejecting the first stock call of a request. -/
def firstCallRejectedEnv : Env Int :=
  { sampleEnv 50 with adjust := fun n _ _ => if n == 0 then .rejected else .ok }

/-- A product service that cannot be reached for stock calls. -/
def unreachableEnv : Env Int :=
  { sampleEnv 50 with adjust := fun _ _ _ => .unreachable }

/-- The pending order `id-0` for two laptops and one mouse. -/
def pendingOrder : OrderRow Int :=
  { id := "id-0", customer_name := "Ada", customer_email := "ada@example.org"
    shipping_address := "1 Main St", total_amount := 20498, status := "pending" }

/-- Line item `id-1` of order `id-0`: two laptops. -/
def laptopItem : OrderItem Int :=
  { id := "id-1", order_id := "id-0", product_id := "prod-001", product_name := "Laptop"
    quantity := 2, unit_price := 9999, total_price := 19998 }

/-- Line item `id-2` of order `id-0`: one mouse. -/
def mouseItem : OrderItem Int :=
  { id := "id-2", order_id := "id-0", product_id := "prod-002", product_name := "Mouse"
    quantity := 1, unit_price := 500, total_price := 500 }

/-- The store after order `id-0` was placed. -/
def placedDb : Db Int := { orders := [pendingOrder], items := [laptopItem, mouseItem] }

/-- A store holding a pending order with the single line item `laptopItem`. -/
def singleItemDb : Db Int :=
  { orders := [{ pendingOrder with total_amount := 19998 }], items := [laptopItem] }

/-- The store holding order `id-0` of `placedDb` in the given status. -/
def placedDbWithStatus (status : String) : Db Int :=
  { orders := [{ pendingOrder with status := status }], items := [laptopItem, mouseItem] }

/-- A product table with 50 units of `prod-001` and 10 of `prod-002`. -/
def sampleProducts : List ProductRow :=
  [{ id := "prod-001", stock := 50 }, { id := "prod-002", stock := 10 }]

/-- A body whose only line asks for the given quantity of `prod-001`. -/
def sampleBody (quantity : QuantityValue) : RawOrderRequest :=
  { customer_name := "Ada", customer_email := "ada@example.org"
    shipping_address := "1 Main St"
    items := [{ product_id := "prod-001", quantity := quantity }] }

/-! ## Further vocabulary and sample data -/

/-- The products read from the product service (`GET /api/products/:id`)
among the effects, in order. -/
def gatewayReads : List Event → List String
  | [] => []
  | Event.get productId :: rest => productId :: gatewayReads rest
  | _ :: rest => gatewayReads rest

/-- Removal of leading and trailing blanks, on the list of characters. -/
def trimSpaces (s : String) : String :=
  String.mk ((s.data.dropWhile (fun c => c == ' ')).reverse.dropWhile (fun c => c == ' ')).reverse

/-- The sample environment with a `trim` that removes blanks. -/
def trimmingEnv : Env Int :=
  { sampleEnv 50 with trim := trimSpaces }

/-- A product service that cannot be reached at all. -/
def downEnv : Env Int :=
  { sampleEnv 50 with getItem := fun _ => .unreachable, adjust := fun _ _ _ => .unreachable }

/-- A product service whose first answer to a stock call is a network failure
and which answers every later stock call with `200`. -/
def flakyEnv : Env Int :=
  { sampleEnv 50 with adjust := fun n _ _ => if n == 0 then .unreachable else .ok }

/-- A request with a customer name and a shipping address made of blanks. -/
def blankRequest : OrderRequest :=
  { customer_name := "   ", customer_email := "ada@example.org"
    shipping_address := "   ", items := [{ product_id := "prod-001", quantity := 2 }] }

/-! ## Frontend cart (`src/app/frontend/src/App.js`) -/

/-- The fields of a catalogue product that the cart shows; `addToCart`
receives such an object. -/
structure CartProduct where
  id : String
  name : String
  stock : Int
deriving DecidableEq, Repr

/-- An entry of the `cart` state: the product's fields and a `quantity`. -/
structure CartItem where
  id : String
  name : String
  stock : Int
  quantity : Int
deriving DecidableEq, Repr

/-- The state updater of `addToCart`: when an entry with the product's id
exists its quantity is incremented, otherwise the product is appended with
quantity 1. -/
def addToCart (prevCart : List CartItem) (product : CartProduct) : List CartItem :=
  match prevCart.find? (fun item => item.id == product.id) with
  | some _ =>
    prevCart.map (fun item =>
      if item.id == product.id then { item with quantity := item.quantity + 1 } else item)
  | none =>
    prevCart ++ [{ id := product.id, name := product.name, stock := product.stock, quantity := 1 }]

/-- The state updater of `removeFromCart`. -/
def removeFromCart (prevCart : List CartItem) (productId : String) : List CartItem :=
  prevCart.filter (fun item => item.id != productId)

/-- The state update made by `updateQuantity`. -/
def updateQuantity (prevCart : List CartItem) (productId : String) (quantity : Int) :
    List CartItem :=
  if quantity < 1 then
    removeFromCart prevCart productId
  else
    prevCart.map (fun item =>
      if item.id == productId then { item with quantity := quantity } else item)

/-- A call of one of the three cart operations. -/
inductive CartAction where
  | add (product : CartProduct)
  | remove (productId : String)
  | update (productId : String) (quantity : Int)
deriving DecidableEq, Repr

/-- The cart after one call. -/
def applyAction (cart : List CartItem) : CartAction → List CartItem
  | .add product => addToCart cart product
  | .remove productId => removeFromCart cart productId
  | .update productId quantity => updateQuantity cart productId quantity

/-- The cart after a sequence of calls, starting from `useState([])`. -/
def runCart (actions : List CartAction) : List CartItem :=
  actions.foldl applyAction []

/-- A call made on an order after it was placed: `PATCH /:id/status` with a
status, or `DELETE /:id`. -/
inductive LifecycleCall where
  | status (status : String)
  | delete
deriving DecidableEq, Repr

/-- The stock calls issued while the given calls are made, one after the
other, on the order `id`; each call works on the store the previous one
left. -/
def lifecycleStockCalls {N : Type} (env : Env N) (id : String) :
    Db N → List LifecycleCall → List (String × Int)
  | _, [] => []
  | db, .status status :: rest =>
    stockCalls (updateStatus env db id status).log
      ++ lifecycleStockCalls env id (updateStatus env db id status).db rest
  | db, .delete :: rest =>
    stockCalls (deleteOrder env db id).log
      ++ lifecycleStockCalls env id (deleteOrder env db id).db rest

/-! # Theorems -/

variable {N : Type}

/-! ## The two loops of `POST /` -/

theorem getProductDetails_eq_some {env : Env N} {pid : String} {p : Product N} :
    getProductDetails env pid = some p ↔ env.getItem pid = .ok p := by
  unfold getProductDetails
  cases h : env.getItem pid <;> simp

theorem stockCalls_append (l₁ l₂ : List Event) :
    stockCalls (l₁ ++ l₂) = stockCalls l₁ ++ stockCalls l₂ := by
  induction l₁ with
  | nil => rfl
  | cons e l ih => cases e <;> simp [stockCalls, ih]

theorem stockCalls_map_get (items : List BasketLine) :
    stockCalls (items.map (fun l => Event.get l.product_id)) = [] := by
  induction items with
  | nil => rfl
  | cons l ls ih => simpa [stockCalls] using ih

theorem checkItems_stockCalls (A : NumOps N) (env : Env N) (orderId : String) (uuid : Nat → String) :
    ∀ (items : List BasketLine) (k : Nat) (total : N) (acc : List (OrderItem N)),
      stockCalls (checkItems A env orderId uuid items k total acc).log = [] := by
  intro items
  induction items with
  | nil => intro k total acc; rfl
  | cons item rest ih =>
    intro k total acc
    simp only [checkItems]
    split
    · rfl
    · split
      · rfl
      · simpa [stockCalls] using ih _ _ _

theorem checkItems_passed (A : NumOps N) (env : Env N) (orderId : String) (uuid : Nat → String) :
    ∀ (items : List BasketLine) (k : Nat) (total : N) (acc : List (OrderItem N)) (t : N)
      (its : List (OrderItem N)),
      (checkItems A env orderId uuid items k total acc).outcome = .passed t its →
      (checkItems A env orderId uuid items k total acc).log
          = items.map (fun l => Event.get l.product_id) ∧
        ∃ new, its = acc ++ new ∧ List.Forall₂ (Snapshot A env orderId) items new := by
  intro items
  induction items with
  | nil =>
    intro k total acc t its h
    simp only [checkItems, Checked.passed.injEq] at h
    exact ⟨rfl, [], by simp [h.2], List.Forall₂.nil⟩
  | cons item rest ih =>
    intro k total acc t its h
    simp only [checkItems] at h ⊢
    split at h
    · simp at h
    · rename_i product hp
      split at h
      · simp at h
      · rename_i hstock
        obtain ⟨hlog, new, hnew, hall⟩ := ih _ _ _ _ _ h
        rw [if_neg hstock]
        refine ⟨by simp [hlog], (⟨uuid (k + 1), orderId, item.product_id, product.name,
          item.quantity, product.price, A.mul product.price item.quantity⟩ : OrderItem N) :: new,
          by simp [hnew], List.Forall₂.cons ?_ hall⟩
        exact ⟨rfl, rfl, rfl, product, getProductDetails_eq_some.mp hp, hstock, rfl, rfl, rfl⟩


theorem checkItems_rejected (A : NumOps N) (env : Env N) (orderId : String) (uuid : Nat → String) :
    ∀ (items : List BasketLine) (k : Nat) (total : N) (acc : List (OrderItem N))
      (resp : Response N),
      (checkItems A env orderId uuid items k total acc).outcome = .rejected resp →
      ∃ pre line post, items = pre ++ line :: post ∧
        (∀ l ∈ pre, ∃ p, env.getItem l.product_id = .ok p ∧ l.quantity ≤ p.stock) ∧
        (checkItems A env orderId uuid items k total acc).log
          = pre.map (fun l => Event.get l.product_id)
            ++ [Event.get line.product_id, Event.rollback] ∧
        ((getProductDetails env line.product_id = none ∧
            resp = .error 400 ("Product not found: " ++ line.product_id)) ∨
          (∃ p, env.getItem line.product_id = .ok p ∧ p.stock < line.quantity ∧
            resp = .error 400 ("Insufficient stock for product: " ++ p.name))) := by
  intro items
  induction items with
  | nil => intro k total acc resp h; simp [checkItems] at h
  | cons item rest ih =>
    intro k total acc resp h
    simp only [checkItems] at h ⊢
    split at h
    · rename_i hp
      simp only [Checked.rejected.injEq] at h
      exact ⟨[], item, rest, rfl, by simp, rfl, Or.inl ⟨hp, h.symm⟩⟩
    · rename_i product hp
      split at h
      · rename_i hstock
        simp only [Checked.rejected.injEq] at h
        rw [if_pos hstock]
        exact ⟨[], item, rest, rfl, by simp, rfl,
          Or.inr ⟨product, getProductDetails_eq_some.mp hp, hstock, h.symm⟩⟩
      · rename_i hstock
        obtain ⟨pre, line, post, hsplit, hpre, hlog, hresp⟩ := ih _ _ _ _ h
        rw [if_neg hstock]
        refine ⟨item :: pre, line, post, by simp [hsplit], ?_, by simp [hlog], hresp⟩
        intro l hl
        rcases List.mem_cons.mp hl with rfl | hl
        · exact ⟨product, getProductDetails_eq_some.mp hp, not_lt.mp hstock⟩
        · exact hpre l hl

theorem checkItems_of_sufficient (A : NumOps N) (env : Env N) (orderId : String)
    (uuid : Nat → String) :
    ∀ (items : List BasketLine) (k : Nat) (total : N) (acc : List (OrderItem N)),
      (∀ l ∈ items, ∃ p, env.getItem l.product_id = .ok p ∧ l.quantity ≤ p.stock) →
      ∃ t its, (checkItems A env orderId uuid items k total acc).outcome = .passed t its := by
  intro items k total acc hall
  cases h : (checkItems A env orderId uuid items k total acc).outcome with
  | passed t its => exact ⟨t, its, rfl⟩
  | rejected resp =>
    exfalso
    obtain ⟨pre, line, post, hsplit, -, -, hresp⟩ := checkItems_rejected A env orderId uuid _ _ _ _ _ h
    obtain ⟨p, hp, hle⟩ := hall line (by simp [hsplit])
    rcases hresp with ⟨hnone, -⟩ | ⟨q, hq, hlt, -⟩
    · rw [getProductDetails_eq_some.mpr hp] at hnone
      exact Option.noConfusion hnone
    · rw [hp] at hq
      cases hq
      exact absurd hlt (not_lt.mpr hle)

theorem updateProductStock_fst (env : Env N) (call : Nat) (pid : String) (q : Int) :
    ∃ accepted, (updateProductStock env call pid q).1 = Event.patch pid (-q) accepted := by
  unfold updateProductStock
  cases env.adjust call pid (-q) <;> exact ⟨_, rfl⟩

theorem insertItems_of_completed (A : NumOps N) (env : Env N) (db : Db N) (uuid : Nat → String) :
    ∀ (items : List (OrderItem N)) (k : Nat),
      (insertItems A env db uuid items k).completed = true →
      (insertItems A env db uuid items k).rows = items.map (storeItem A) ∧
        stockCalls (insertItems A env db uuid items k).log
          = items.map (fun i => (i.product_id, -i.quantity)) := by
  intro items
  induction items with
  | nil => intro k _; exact ⟨rfl, rfl⟩
  | cons item rest ih =>
    intro k h
    simp only [insertItems] at h ⊢
    split at h
    · simp at h
    · rename_i hrej
      obtain ⟨hrows, hcalls⟩ := ih _ h
      obtain ⟨accepted, hcall⟩ := updateProductStock_fst env k item.product_id item.quantity
      rw [if_neg hrej]
      simp [hrows, hcall, stockCalls, hcalls]

theorem insertItems_accepted (A : NumOps N) (env : Env N) (db : Db N) (uuid : Nat → String) :
    ∀ (items : List (OrderItem N)) (k : Nat),
      (∀ j, j < items.length → insertRejected env db uuid (k + j + 1) = false) →
      (insertItems A env db uuid items k).completed = true := by
  intro items
  induction items with
  | nil => intro k _; rfl
  | cons item rest ih =>
    intro k h
    simp only [insertItems]
    have h0 := h 0 (by simp)
    simp only [Nat.add_zero] at h0
    rw [if_neg (by simp [h0])]
    apply ih
    intro j hj
    have := h (j + 1) (by simpa using hj)
    rw [show k + 1 + j + 1 = k + (j + 1) + 1 by omega]
    exact this

theorem insertItems_first_rejected (A : NumOps N) (env : Env N) (db : Db N)
    (uuid : Nat → String) :
    ∀ (items : List (OrderItem N)) (k j : Nat), j < items.length →
      (∀ i, i < j → insertRejected env db uuid (k + i + 1) = false) →
      insertRejected env db uuid (k + j + 1) = true →
      (insertItems A env db uuid items k).completed = false ∧
        stockCalls (insertItems A env db uuid items k).log
          = (items.take j).map (fun i => (i.product_id, -i.quantity)) := by
  intro items
  induction items with
  | nil => intro k j hj; simp at hj
  | cons item rest ih =>
    intro k j hj hfirst hrej
    simp only [insertItems]
    cases j with
    | zero =>
      simp only [Nat.add_zero] at hrej
      rw [if_pos hrej]
      exact ⟨rfl, rfl⟩
    | succ j =>
      have h0 := hfirst 0 (by omega)
      simp only [Nat.add_zero] at h0
      rw [if_neg (by simp [h0])]
      obtain ⟨accepted, hcall⟩ := updateProductStock_fst env k item.product_id item.quantity
      have := ih (k + 1) j (by simpa using hj)
        (fun i hi => by
          have := hfirst (i + 1) (by omega)
          rw [show k + 1 + i + 1 = k + (i + 1) + 1 by omega]
          exact this)
        (by rw [show k + 1 + j + 1 = k + (j + 1) + 1 by omega]; exact hrej)
      simp [this.1, this.2, hcall, stockCalls]

theorem forall₂_exists_right {α β : Type} {R : α → β → Prop} {l₁ : List α} {l₂ : List β}
    (h : List.Forall₂ R l₁ l₂) {a : α} (ha : a ∈ l₁) : ∃ b, b ∈ l₂ ∧ R a b := by
  induction h with
  | nil => simp at ha
  | cons hab _ ih =>
    rcases List.mem_cons.mp ha with rfl | ha
    · exact ⟨_, List.mem_cons_self _ _, hab⟩
    · obtain ⟨b, hb, hr⟩ := ih ha
      exact ⟨b, List.mem_cons_of_mem _ hb, hr⟩

theorem placeOrder_of_rejected (A : NumOps N) (env : Env N) (db : Db N) (req : OrderRequest)
    (uuid : Nat → String) (resp : Response N) (hvalid : validOrderRequest env req = true)
    (h : (checkItems A env (uuid 0) uuid req.items 0 A.zero []).outcome = .rejected resp) :
    placeOrder A env db req uuid =
      { response := resp, db := db
        log := Event.beginTransaction ::
          (checkItems A env (uuid 0) uuid req.items 0 A.zero []).log } := by
  simp only [placeOrder, hvalid, if_true, h]

/-- What a run of `POST /` looks like when some line fails validation: the
response of the first failing line, the store as it was, and only reads of the
product service between `beginTransaction` and `rollback`. -/
theorem placeOrder_first_failure (A : NumOps N) (env : Env N) (db : Db N) (req : OrderRequest)
    (uuid : Nat → String) (hvalid : validOrderRequest env req = true)
    (hfail : ∃ line ∈ req.items,
      ¬ ∃ p, env.getItem line.product_id = .ok p ∧ line.quantity ≤ p.stock) :
    ∃ pre line post, req.items = pre ++ line :: post ∧
      (∀ l ∈ pre, ∃ p, env.getItem l.product_id = .ok p ∧ l.quantity ≤ p.stock) ∧
      (placeOrder A env db req uuid).db = db ∧
      (placeOrder A env db req uuid).log
        = Event.beginTransaction :: pre.map (fun l => Event.get l.product_id)
          ++ [Event.get line.product_id, Event.rollback] ∧
      ((getProductDetails env line.product_id = none ∧
          (placeOrder A env db req uuid).response
            = .error 400 ("Product not found: " ++ line.product_id)) ∨
        (∃ p, env.getItem line.product_id = .ok p ∧ p.stock < line.quantity ∧
          (placeOrder A env db req uuid).response
            = .error 400 ("Insufficient stock for product: " ++ p.name))) := by
  cases h : (checkItems A env (uuid 0) uuid req.items 0 A.zero []).outcome with
  | passed t its =>
    exfalso
    obtain ⟨line, hmem, hno⟩ := hfail
    obtain ⟨-, new, -, hall⟩ := checkItems_passed A env (uuid 0) uuid _ _ _ _ _ _ h
    obtain ⟨item, -, hsnap⟩ := forall₂_exists_right hall hmem
    obtain ⟨-, -, -, p, hp, hstock, -⟩ := hsnap
    exact hno ⟨p, hp, not_lt.mp hstock⟩
  | rejected resp =>
    obtain ⟨pre, line, post, hsplit, hpre, hlog, hresp⟩ :=
      checkItems_rejected A env (uuid 0) uuid _ _ _ _ _ h
    rw [placeOrder_of_rejected A env db req uuid resp hvalid h]
    refine ⟨pre, line, post, hsplit, hpre, rfl, by simp [hlog], ?_⟩
    rcases hresp with ⟨hnone, hr⟩ | ⟨p, hp, hlt, hr⟩
    · exact Or.inl ⟨hnone, hr⟩
    · exact Or.inr ⟨p, hp, hlt, hr⟩

/-! ## Validation failures (C2, C3) -/

theorem split_position {α : Type} {pre₀ post₀ pre post : List α} {a₀ a : α}
    (h : pre₀ ++ a₀ :: post₀ = pre ++ a :: post) : a₀ ∈ pre ∨ a₀ = a ∨ a ∈ pre₀ := by
  rcases List.append_eq_append_iff.mp h with ⟨m, hm, hrest⟩ | ⟨m, hm, hrest⟩
  · cases m with
    | nil =>
      simp only [List.nil_append, List.cons.injEq] at hrest
      exact Or.inr (Or.inl hrest.1)
    | cons x m =>
      simp only [List.cons_append, List.cons.injEq] at hrest
      exact Or.inl (by simp [hm, hrest.1])
  · cases m with
    | nil =>
      simp only [List.nil_append, List.cons.injEq] at hrest
      exact Or.inr (Or.inl hrest.1.symm)
    | cons x m =>
      simp only [List.cons_append, List.cons.injEq] at hrest
      exact Or.inr (Or.inr (by simp [hm, hrest.1]))

theorem only_reads_of_log {log : List Event} {pre : List BasketLine} {line : BasketLine}
    (h : log = Event.beginTransaction :: pre.map (fun l => Event.get l.product_id)
      ++ [Event.get line.product_id, Event.rollback]) :
    stockCalls log = [] ∧
      ∀ e ∈ log, e = Event.beginTransaction ∨ e = Event.rollback ∨ ∃ pid, e = Event.get pid := by
  subst h
  constructor
  · simp [stockCalls, stockCalls_append, stockCalls_map_get]
  · intro e he
    simp only [List.cons_append, List.mem_cons, List.mem_append, List.mem_map,
      List.mem_singleton, List.not_mem_nil, or_false] at he
    rcases he with rfl | ⟨l, -, rfl⟩ | rfl | rfl
    · exact Or.inl rfl
    · exact Or.inr (Or.inr ⟨_, rfl⟩)
    · exact Or.inr (Or.inr ⟨_, rfl⟩)
    · exact Or.inr (Or.inl rfl)

/-- C2 (amended): for every valid request whose basket has a line asking for
more than the stock the product service reports, `POST /` fails with status
400, leaves the store unchanged, and performs no insert and no stock call; the
error is the one of the first failing line, so it is "Insufficient stock"
whenever no line before an under-stocked line names a product the service
does not return, and "Product not found" otherwise. -/
theorem placeOrder_understocked (A : NumOps N) (env : Env N) (db : Db N) (req : OrderRequest)
    (uuid : Nat → String) (hvalid : validOrderRequest env req = true)
    (pre post : List BasketLine) (line : BasketLine) (product : Product N)
    (hsplit : req.items = pre ++ line :: post)
    (hproduct : env.getItem line.product_id = .ok product)
    (hshort : product.stock < line.quantity) :
    (placeOrder A env db req uuid).db = db ∧
      stockCalls (placeOrder A env db req uuid).log = [] ∧
      (∀ e ∈ (placeOrder A env db req uuid).log,
        e = Event.beginTransaction ∨ e = Event.rollback ∨ ∃ pid, e = Event.get pid) ∧
      ((∃ l ∈ req.items, ∃ p, env.getItem l.product_id = .ok p ∧ p.stock < l.quantity ∧
          (placeOrder A env db req uuid).response
            = .error 400 ("Insufficient stock for product: " ++ p.name)) ∨
        (∃ l ∈ pre, getProductDetails env l.product_id = none ∧
          (placeOrder A env db req uuid).response
            = .error 400 ("Product not found: " ++ l.product_id))) ∧
      ((∀ l ∈ pre, ∃ p, env.getItem l.product_id = .ok p) →
        ∃ l ∈ req.items, ∃ p, env.getItem l.product_id = .ok p ∧ p.stock < l.quantity ∧
          (placeOrder A env db req uuid).response
            = .error 400 ("Insufficient stock for product: " ++ p.name)) := by
  have hfail : ∃ l ∈ req.items,
      ¬ ∃ p, env.getItem l.product_id = .ok p ∧ l.quantity ≤ p.stock := by
    refine ⟨line, by simp [hsplit], ?_⟩
    rintro ⟨p, hp, hle⟩
    rw [hproduct] at hp
    cases hp
    exact absurd hshort (not_lt.mpr hle)
  obtain ⟨pre₀, line₀, post₀, hsplit₀, hpre₀, hdb, hlog, hresp⟩ :=
    placeOrder_first_failure A env db req uuid hvalid hfail
  obtain ⟨hcalls, hreads⟩ := only_reads_of_log hlog
  have hmem₀ : line₀ ∈ req.items := by simp [hsplit₀]
  have hpos := split_position (hsplit₀.symm.trans hsplit)
  have hkey : (∃ l ∈ req.items, ∃ p, env.getItem l.product_id = .ok p ∧ p.stock < l.quantity ∧
        (placeOrder A env db req uuid).response
          = .error 400 ("Insufficient stock for product: " ++ p.name)) ∨
      (line₀ ∈ pre ∧ getProductDetails env line₀.product_id = none ∧
        (placeOrder A env db req uuid).response
          = .error 400 ("Product not found: " ++ line₀.product_id)) := by
    rcases hresp with ⟨hnone, hr⟩ | ⟨p, hp, hlt, hr⟩
    · rcases hpos with hin | heq | hin
      · exact Or.inr ⟨hin, hnone, hr⟩
      · subst heq
        rw [getProductDetails_eq_some.mpr hproduct] at hnone
        exact Option.noConfusion hnone
      · obtain ⟨p, hp, hle⟩ := hpre₀ line hin
        rw [hproduct] at hp
        cases hp
        exact absurd hshort (not_lt.mpr hle)
    · exact Or.inl ⟨line₀, hmem₀, p, hp, hlt, hr⟩
  refine ⟨hdb, hcalls, hreads, ?_, ?_⟩
  · rcases hkey with h | ⟨hin, hnone, hr⟩
    · exact Or.inl h
    · exact Or.inr ⟨line₀, hin, hnone, hr⟩
  · intro hexists
    rcases hkey with h | ⟨hin, hnone, -⟩
    · exact h
    · obtain ⟨p, hp⟩ := hexists line₀ hin
      rw [getProductDetails_eq_some.mpr hp] at hnone
      exact Option.noConfusion hnone

/-- C3 (amended): for every valid request whose basket names a product the
product service answers "not found" for, `POST /` fails with status 400,
leaves the store unchanged, and performs no insert and no stock call; the
error is the one of the first failing line, so it is "Product not found"
whenever no line before the unknown one is under-stocked, and "Insufficient
stock" otherwise. -/
theorem placeOrder_unknown_product (A : NumOps N) (env : Env N) (db : Db N) (req : OrderRequest)
    (uuid : Nat → String) (hvalid : validOrderRequest env req = true)
    (pre post : List BasketLine) (line : BasketLine)
    (hsplit : req.items = pre ++ line :: post)
    (hunknown : env.getItem line.product_id = .notFound) :
    (placeOrder A env db req uuid).db = db ∧
      stockCalls (placeOrder A env db req uuid).log = [] ∧
      (∀ e ∈ (placeOrder A env db req uuid).log,
        e = Event.beginTransaction ∨ e = Event.rollback ∨ ∃ pid, e = Event.get pid) ∧
      ((∃ l ∈ req.items, getProductDetails env l.product_id = none ∧
          (placeOrder A env db req uuid).response
            = .error 400 ("Product not found: " ++ l.product_id)) ∨
        (∃ l ∈ pre, ∃ p, env.getItem l.product_id = .ok p ∧ p.stock < l.quantity ∧
          (placeOrder A env db req uuid).response
            = .error 400 ("Insufficient stock for product: " ++ p.name))) ∧
      ((∀ l ∈ pre, ∀ p, env.getItem l.product_id = .ok p → l.quantity ≤ p.stock) →
        ∃ l ∈ req.items, getProductDetails env l.product_id = none ∧
          (placeOrder A env db req uuid).response
            = .error 400 ("Product not found: " ++ l.product_id)) := by
  have hnone : getProductDetails env line.product_id = none := by
    simp [getProductDetails, hunknown]
  have hfail : ∃ l ∈ req.items,
      ¬ ∃ p, env.getItem l.product_id = .ok p ∧ l.quantity ≤ p.stock := by
    refine ⟨line, by simp [hsplit], ?_⟩
    rintro ⟨p, hp, -⟩
    rw [hunknown] at hp
    cases hp
  obtain ⟨pre₀, line₀, post₀, hsplit₀, hpre₀, hdb, hlog, hresp⟩ :=
    placeOrder_first_failure A env db req uuid hvalid hfail
  obtain ⟨hcalls, hreads⟩ := only_reads_of_log hlog
  have hmem₀ : line₀ ∈ req.items := by simp [hsplit₀]
  have hpos := split_position (hsplit₀.symm.trans hsplit)
  have hkey : (∃ l ∈ req.items, getProductDetails env l.product_id = none ∧
        (placeOrder A env db req uuid).response
          = .error 400 ("Product not found: " ++ l.product_id)) ∨
      (line₀ ∈ pre ∧ ∃ p, env.getItem line₀.product_id = .ok p ∧ p.stock < line₀.quantity ∧
        (placeOrder A env db req uuid).response
          = .error 400 ("Insufficient stock for product: " ++ p.name)) := by
    rcases hresp with ⟨hn, hr⟩ | ⟨p, hp, hlt, hr⟩
    · exact Or.inl ⟨line₀, hmem₀, hn, hr⟩
    · rcases hpos with hin | heq | hin
      · exact Or.inr ⟨hin, p, hp, hlt, hr⟩
      · subst heq
        rw [hunknown] at hp
        cases hp
      · obtain ⟨q, hq, -⟩ := hpre₀ line hin
        rw [hunknown] at hq
        cases hq
  refine ⟨hdb, hcalls, hreads, ?_, ?_⟩
  · rcases hkey with h | ⟨hin, p, hp, hlt, hr⟩
    · exact Or.inl h
    · exact Or.inr ⟨line₀, hin, p, hp, hlt, hr⟩
  · intro hstocked
    rcases hkey with h | ⟨hin, p, hp, hlt, -⟩
    · exact h
    · exact absurd hlt (not_lt.mpr (hstocked line₀ hin p hp))

/-! ## Runs that reach the inserts -/

theorem snapshot_calls (A : NumOps N) (env : Env N) (orderId : String)
    {lines : List BasketLine} {items : List (OrderItem N)}
    (h : List.Forall₂ (Snapshot A env orderId) lines items) :
    items.map (fun i => (i.product_id, -i.quantity))
      = lines.map (fun l => (l.product_id, -l.quantity)) := by
  induction h with
  | nil => rfl
  | cons hab _ ih =>
    obtain ⟨-, hpid, hq, -⟩ := hab
    simp [hpid, hq, ih]

theorem insertItems_log_events (A : NumOps N) (env : Env N) (db : Db N) (uuid : Nat → String) :
    ∀ (items : List (OrderItem N)) (k : Nat), ∀ e ∈ (insertItems A env db uuid items k).log,
      (∃ id pid q, e = Event.insertItem id pid q) ∨ (∃ pid q a, e = Event.patch pid q a) := by
  intro items
  induction items with
  | nil => intro k e he; simp [insertItems] at he
  | cons item rest ih =>
    intro k e he
    simp only [insertItems] at he
    split at he
    · simp at he
    · obtain ⟨accepted, hcall⟩ := updateProductStock_fst env k item.product_id item.quantity
      simp only [hcall, List.mem_cons] at he
      rcases he with rfl | rfl | he
      · exact Or.inl ⟨_, _, _, rfl⟩
      · exact Or.inr ⟨_, _, _, rfl⟩
      · exact ih _ e he

theorem select_new_order (env : Env N) (db : Db N) (uuid : Nat → String) (row : OrderRow N)
    (hid : row.id = uuid 0) (h : insertRejected env db uuid 0 = false) :
    ((db.orders ++ [row]).filter (fun o => o.id == uuid 0)).head? = some row := by
  simp only [insertRejected, Bool.or_eq_false_iff] at h
  have hnone : db.orders.filter (fun o => o.id == uuid 0) = [] := by
    rw [List.filter_eq_nil_iff]
    intro o ho
    have := List.any_eq_false.mp h.2 o ho
    simpa using this
  simp [List.filter_append, hnone, List.filter_cons, hid]

/-- The validation loop of `POST /` when every line is known and in stock. -/
theorem placeOrder_of_passed (A : NumOps N) (env : Env N) (req : OrderRequest)
    (uuid : Nat → String)
    (hpass : ∀ l ∈ req.items, ∃ p, env.getItem l.product_id = .ok p ∧ l.quantity ≤ p.stock) :
    ∃ t its, List.Forall₂ (Snapshot A env (uuid 0)) req.items its ∧
      (checkItems A env (uuid 0) uuid req.items 0 A.zero []).outcome = .passed t its ∧
      (checkItems A env (uuid 0) uuid req.items 0 A.zero []).log
        = req.items.map (fun l => Event.get l.product_id) := by
  obtain ⟨t, its, h⟩ := checkItems_of_sufficient A env (uuid 0) uuid req.items 0 A.zero [] hpass
  obtain ⟨hlog, new, hnew, hall⟩ := checkItems_passed A env (uuid 0) uuid _ _ _ _ _ _ h
  simp only [List.nil_append] at hnew
  subst hnew
  exact ⟨t, its, hall, h, hlog⟩

theorem placeOrder_order_rejected (A : NumOps N) (env : Env N) (db : Db N) (req : OrderRequest)
    (uuid : Nat → String) (t : N) (its : List (OrderItem N))
    (hvalid : validOrderRequest env req = true)
    (hout : (checkItems A env (uuid 0) uuid req.items 0 A.zero []).outcome = .passed t its)
    (hrej : insertRejected env db uuid 0 = true) :
    placeOrder A env db req uuid =
      { response := .error 500 "Failed to create order", db := db
        log := Event.beginTransaction ::
          ((checkItems A env (uuid 0) uuid req.items 0 A.zero []).log ++ [Event.rollback]) } := by
  simp only [placeOrder, hvalid, if_true, hout, hrej, List.cons_append]

theorem placeOrder_item_rejected (A : NumOps N) (env : Env N) (db : Db N) (req : OrderRequest)
    (uuid : Nat → String) (t : N) (its : List (OrderItem N))
    (hvalid : validOrderRequest env req = true)
    (hout : (checkItems A env (uuid 0) uuid req.items 0 A.zero []).outcome = .passed t its)
    (hacc : insertRejected env db uuid 0 = false)
    (hrun : (insertItems A env db uuid its 0).completed = false) :
    placeOrder A env db req uuid =
      { response := .error 500 "Failed to create order", db := db
        log := Event.beginTransaction ::
          ((checkItems A env (uuid 0) uuid req.items 0 A.zero []).log
            ++ (Event.insertOrder (uuid 0) :: (insertItems A env db uuid its 0).log
            ++ [Event.rollback])) } := by
  simp only [placeOrder, hvalid, if_true, hout, hacc, hrun, Bool.false_eq_true, if_false,
    List.append_assoc, List.cons_append]

theorem placeOrder_committed (A : NumOps N) (env : Env N) (db : Db N) (req : OrderRequest)
    (uuid : Nat → String) (t : N) (its : List (OrderItem N))
    (hvalid : validOrderRequest env req = true)
    (hout : (checkItems A env (uuid 0) uuid req.items 0 A.zero []).outcome = .passed t its)
    (hacc : insertRejected env db uuid 0 = false)
    (hrun : (insertItems A env db uuid its 0).completed = true) :
    placeOrder A env db req uuid =
      { response := .created
          { order := { id := uuid 0, customer_name := env.trim req.customer_name
                       customer_email := req.customer_email
                       shipping_address := req.shipping_address
                       total_amount := A.toDecimal t, status := "pending" }
            items := its }
        db := { orders := db.orders ++ [{ id := uuid 0
                                          customer_name := env.trim req.customer_name
                                          customer_email := req.customer_email
                                          shipping_address := req.shipping_address
                                          total_amount := A.toDecimal t, status := "pending" }]
                items := db.items ++ (insertItems A env db uuid its 0).rows }
        log := Event.beginTransaction ::
          ((checkItems A env (uuid 0) uuid req.items 0 A.zero []).log
            ++ (Event.insertOrder (uuid 0) :: (insertItems A env db uuid its 0).log
            ++ [Event.commit])) } := by
  simp only [placeOrder, hvalid, if_true, hout, hacc, hrun, Bool.false_eq_true, if_false,
    List.append_assoc, List.cons_append]
  rw [select_new_order env db uuid _ rfl hacc]

/-! ## Rejected inserts and stock calls (C4, C6) -/

/-- A `201` answer of `POST /` means that the request was valid, every line
passed validation and every insert was accepted. -/
theorem placeOrder_created_inv (A : NumOps N) (env : Env N) (db : Db N) (req : OrderRequest)
    (uuid : Nat → String) (o : OrderView N)
    (h : (placeOrder A env db req uuid).response = .created o) :
    validOrderRequest env req = true ∧
      ∃ t its, (checkItems A env (uuid 0) uuid req.items 0 A.zero []).outcome = .passed t its ∧
        List.Forall₂ (Snapshot A env (uuid 0)) req.items its ∧
        (checkItems A env (uuid 0) uuid req.items 0 A.zero []).log
          = req.items.map (fun l => Event.get l.product_id) ∧
        insertRejected env db uuid 0 = false ∧
        (insertItems A env db uuid its 0).completed = true := by
  cases hvalid : validOrderRequest env req with
  | false => simp [placeOrder, hvalid] at h
  | true =>
    refine ⟨rfl, ?_⟩
    cases hout : (checkItems A env (uuid 0) uuid req.items 0 A.zero []).outcome with
    | rejected resp =>
      exfalso
      rw [placeOrder_of_rejected A env db req uuid resp hvalid hout] at h
      obtain ⟨_, _, _, -, -, -, hresp⟩ := checkItems_rejected A env (uuid 0) uuid _ _ _ _ _ hout
      rcases hresp with ⟨-, hr⟩ | ⟨_, -, -, hr⟩ <;> simp [hr] at h
    | passed t its =>
      obtain ⟨hlog, new, hnew, hall⟩ := checkItems_passed A env (uuid 0) uuid _ _ _ _ _ _ hout
      simp only [List.nil_append] at hnew
      subst hnew
      refine ⟨t, its, rfl, hall, hlog, ?_⟩
      cases hacc : insertRejected env db uuid 0 with
      | true =>
        rw [placeOrder_order_rejected A env db req uuid t its hvalid hout hacc] at h
        simp at h
      | false =>
        refine ⟨rfl, ?_⟩
        cases hrun : (insertItems A env db uuid its 0).completed with
        | false =>
          rw [placeOrder_item_rejected A env db req uuid t its hvalid hout hacc hrun] at h
          simp at h
        | true => rfl

/-- C4 (amended): when every line has passed validation and the store rejects
an insert (position `0` is the order row, position `j + 1` line item `j`),
`POST /` rolls the transaction back (the store is unchanged, no commit
happens), answers 500 "Failed to create order", and the stock calls issued
are the decrements of the line items inserted before the rejected insert, one
per such line in basket order: none when the order row or the first line item
is rejected. -/
theorem placeOrder_insert_rejected (A : NumOps N) (env : Env N) (db : Db N)
    (req : OrderRequest) (uuid : Nat → String) (hvalid : validOrderRequest env req = true)
    (hpass : ∀ l ∈ req.items, ∃ p, env.getItem l.product_id = .ok p ∧ l.quantity ≤ p.stock)
    (j : Nat) (hj : j ≤ req.items.length) (hrej : insertRejected env db uuid j = true)
    (hfirst : ∀ i, i < j → insertRejected env db uuid i = false) :
    (placeOrder A env db req uuid).db = db ∧
      (placeOrder A env db req uuid).response = .error 500 "Failed to create order" ∧
      Event.commit ∉ (placeOrder A env db req uuid).log ∧
      stockCalls (placeOrder A env db req uuid).log
        = (req.items.take (j - 1)).map (fun l => (l.product_id, -l.quantity)) := by
  obtain ⟨t, its, hall, hout, hlog⟩ := placeOrder_of_passed A env req uuid hpass
  cases j with
  | zero =>
    rw [placeOrder_order_rejected A env db req uuid t its hvalid hout hrej, hlog]
    refine ⟨rfl, rfl, by simp, ?_⟩
    simp [stockCalls, stockCalls_append, stockCalls_map_get]
  | succ j =>
    have h0 : insertRejected env db uuid 0 = false := hfirst 0 (by omega)
    have hlen : j < its.length := by
      have := hall.length_eq
      omega
    obtain ⟨hcompleted, hcalls⟩ := insertItems_first_rejected A env db uuid its 0 j hlen
      (fun i hi => by
        have := hfirst (i + 1) (by omega)
        simpa using this)
      (by simpa using hrej)
    have hevents := insertItems_log_events A env db uuid its 0
    rw [placeOrder_item_rejected A env db req uuid t its hvalid hout h0 hcompleted, hlog]
    refine ⟨rfl, rfl, ?_, ?_⟩
    · have hno : Event.commit ∉ (insertItems A env db uuid its 0).log := by
        intro hmem
        rcases hevents _ hmem with ⟨_, _, _, h⟩ | ⟨_, _, _, h⟩ <;> cases h
      simp [hno]
    · simp only [stockCalls, List.cons_append, stockCalls_append, stockCalls_map_get,
        List.nil_append, hcalls, List.append_nil, Nat.add_sub_cancel]
      rw [List.map_take, List.map_take, snapshot_calls A env (uuid 0) hall]

/-- C6: whenever `POST /` answers `201`, the stock calls it has issued are, in
basket order, one call per basket line, for that line's product and with the
negated requested quantity. -/
theorem placeOrder_stock_calls (A : NumOps N) (env : Env N) (db : Db N) (req : OrderRequest)
    (uuid : Nat → String) (o : OrderView N)
    (h : (placeOrder A env db req uuid).response = .created o) :
    stockCalls (placeOrder A env db req uuid).log
      = req.items.map (fun l => (l.product_id, -l.quantity)) := by
  obtain ⟨hvalid, t, its, hout, hall, hlog, hacc, hrun⟩ :=
    placeOrder_created_inv A env db req uuid o h
  rw [placeOrder_committed A env db req uuid t its hvalid hout hacc hrun, hlog]
  simp only [stockCalls, List.cons_append, stockCalls_append, stockCalls_map_get,
    List.nil_append, (insertItems_of_completed A env db uuid its 0 hrun).2, List.append_nil]
  exact snapshot_calls A env (uuid 0) hall

/-! ## Failed decrements and the returned order (C7, C8) -/

theorem checkItems_adjust (A : NumOps N) (env : Env N) (orderId : String) (uuid : Nat → String)
    (adjust : Nat → String → Int → PatchOutcome) :
    ∀ (items : List BasketLine) (k : Nat) (total : N) (acc : List (OrderItem N)),
      checkItems A { env with adjust := adjust } orderId uuid items k total acc
        = checkItems A env orderId uuid items k total acc := by
  intro items
  induction items with
  | nil => intro k total acc; rfl
  | cons item rest ih =>
    intro k total acc
    have hget : getProductDetails { env with adjust := adjust } item.product_id
        = getProductDetails env item.product_id := rfl
    simp only [checkItems, hget, ih]

theorem insertRejected_adjust (env : Env N) (db : Db N) (uuid : Nat → String)
    (adjust : Nat → String → Int → PatchOutcome) (k : Nat) :
    insertRejected { env with adjust := adjust } db uuid k = insertRejected env db uuid k := by
  cases k <;> rfl

/-- C7: for every valid request whose lines are all known and in stock and
whose inserts the store accepts, `POST /` answers `201` with the order and
commits the order row and one row per line item, and this answer and the
committed rows are the same whatever the product service answers to the
stock calls: a failed decrement neither fails the request nor rolls the
transaction back. -/
theorem placeOrder_survives_failed_decrements (A : NumOps N) (env : Env N) (db : Db N)
    (req : OrderRequest) (uuid : Nat → String) (hvalid : validOrderRequest env req = true)
    (hpass : ∀ l ∈ req.items, ∃ p, env.getItem l.product_id = .ok p ∧ l.quantity ≤ p.stock)
    (hins : ∀ k, k ≤ req.items.length → insertRejected env db uuid k = false) :
    ∃ o : OrderView N, o.order.id = uuid 0 ∧ o.items.length = req.items.length ∧
      ∀ adjust : Nat → String → Int → PatchOutcome,
        (placeOrder A { env with adjust := adjust } db req uuid).response = .created o ∧
        (placeOrder A { env with adjust := adjust } db req uuid).db
          = { orders := db.orders ++ [o.order]
              items := db.items ++ o.items.map (storeItem A) } ∧
        Event.commit ∈ (placeOrder A { env with adjust := adjust } db req uuid).log ∧
        Event.rollback ∉ (placeOrder A { env with adjust := adjust } db req uuid).log := by
  obtain ⟨t, its, hall, hout, hlog⟩ := placeOrder_of_passed A env req uuid hpass
  refine ⟨{ order := { id := uuid 0, customer_name := env.trim req.customer_name
                       customer_email := req.customer_email
                       shipping_address := req.shipping_address
                       total_amount := A.toDecimal t, status := "pending" }
            items := its }, rfl, hall.length_eq.symm, ?_⟩
  intro adjust
  have hvalid' : validOrderRequest { env with adjust := adjust } req = true := hvalid
  have hout' : (checkItems A { env with adjust := adjust } (uuid 0) uuid req.items 0 A.zero
      []).outcome = .passed t its := by rw [checkItems_adjust, hout]
  have hlog' : (checkItems A { env with adjust := adjust } (uuid 0) uuid req.items 0 A.zero
      []).log = req.items.map (fun l => Event.get l.product_id) := by
    rw [checkItems_adjust, hlog]
  have hacc : insertRejected { env with adjust := adjust } db uuid 0 = false := by
    rw [insertRejected_adjust]
    exact hins 0 (Nat.zero_le _)
  have hrun : (insertItems A { env with adjust := adjust } db uuid its 0).completed = true := by
    apply insertItems_accepted
    intro j hj
    rw [insertRejected_adjust]
    apply hins
    have := hall.length_eq
    omega
  have hrows := (insertItems_of_completed A _ db uuid its 0 hrun).1
  have hevents := insertItems_log_events A { env with adjust := adjust } db uuid its 0
  rw [placeOrder_committed A _ db req uuid t its hvalid' hout' hacc hrun, hlog', hrows]
  refine ⟨rfl, rfl, by simp, ?_⟩
  have hno : Event.rollback ∉ (insertItems A { env with adjust := adjust } db uuid its 0).log := by
    intro hmem
    rcases hevents _ hmem with ⟨_, _, _, h⟩ | ⟨_, _, _, h⟩ <;> cases h
  simp [hno]

/-- C8: the order in a `201` answer of `POST /` has status `pending` and the
identifier drawn for it, and its line items match the basket line by line, in
order: the requested product and quantity, the name and unit price the
product service reported for that product, and the order's identifier as
parent reference. -/
theorem placeOrder_created_order (A : NumOps N) (env : Env N) (db : Db N) (req : OrderRequest)
    (uuid : Nat → String) (o : OrderView N)
    (h : (placeOrder A env db req uuid).response = .created o) :
    o.order.status = "pending" ∧ o.order.id = uuid 0 ∧
      List.Forall₂
        (fun (line : BasketLine) (item : OrderItem N) =>
          item.product_id = line.product_id ∧ item.quantity = line.quantity ∧
          item.order_id = o.order.id ∧
          ∃ p, env.getItem line.product_id = .ok p ∧ item.product_name = p.name ∧
            item.unit_price = p.price)
        req.items o.items := by
  obtain ⟨hvalid, t, its, hout, hall, -, hacc, hrun⟩ :=
    placeOrder_created_inv A env db req uuid o h
  rw [placeOrder_committed A env db req uuid t its hvalid hout hacc hrun] at h
  simp only [Response.created.injEq] at h
  subst h
  refine ⟨rfl, rfl, hall.imp ?_⟩
  rintro line item ⟨hparent, hpid, hq, p, hp, -, hname, hprice, -⟩
  exact ⟨hpid, hq, hparent, p, hp, hname, hprice⟩

/-! ## Order of effects (C5) -/

theorem split_after_prefix {α : Type} {l₁ l₂ pre post : List α} {e : α}
    (h : l₁ ++ l₂ = pre ++ e :: post) (he : e ∉ l₁) :
    ∃ m, pre = l₁ ++ m ∧ l₂ = m ++ e :: post := by
  rcases List.append_eq_append_iff.mp h with ⟨m, hm, hrest⟩ | ⟨m, hm, hrest⟩
  · exact ⟨m, hm, hrest⟩
  · cases m with
    | nil =>
      simp only [List.nil_append] at hrest
      exact ⟨[], by simpa using hm.symm, by simpa using hrest.symm⟩
    | cons x m =>
      simp only [List.cons_append, List.cons.injEq] at hrest
      exact absurd (by simp [hm, hrest.1]) he

theorem split_before_last {α : Type} {l pre post : List α} {e x : α}
    (h : l ++ [x] = pre ++ e :: post) (he : e ≠ x) :
    ∃ post', l = pre ++ e :: post' := by
  rcases List.append_eq_append_iff.mp h with ⟨m, -, hrest⟩ | ⟨m, hm, hrest⟩
  · cases m with
    | nil =>
      simp only [List.nil_append, List.cons.injEq] at hrest
      exact absurd hrest.1.symm he
    | cons y m => simp at hrest
  · cases m with
    | nil =>
      simp only [List.nil_append, List.cons.injEq] at hrest
      exact absurd hrest.1 he
    | cons y m =>
      simp only [List.cons_append, List.cons.injEq] at hrest
      exact ⟨m, by rw [hm, hrest.1]⟩

theorem mem_stockCalls_of_patch {log : List Event} {pid : String} {q : Int} {a : Bool}
    (h : Event.patch pid q a ∈ log) : (pid, q) ∈ stockCalls log := by
  induction log with
  | nil => simp at h
  | cons e rest ih =>
    rcases List.mem_cons.mp h with rfl | h'
    · simp [stockCalls]
    · cases e <;> simp [stockCalls, ih h']

theorem insertItems_patch_split (A : NumOps N) (env : Env N) (db : Db N) (uuid : Nat → String) :
    ∀ (items : List (OrderItem N)) (k : Nat) (pre post : List Event) (pid : String) (q : Int)
      (a : Bool), (insertItems A env db uuid items k).log = pre ++ Event.patch pid q a :: post →
      ∃ pre' id, pre = pre' ++ [Event.insertItem id pid (-q)] := by
  intro items
  induction items with
  | nil => intro k pre post pid q a h; simp [insertItems] at h
  | cons item rest ih =>
    intro k pre post pid q a h
    simp only [insertItems] at h
    split at h
    · simp at h
    · obtain ⟨accepted, hcall⟩ := updateProductStock_fst env k item.product_id item.quantity
      rw [hcall] at h
      cases pre with
      | nil => simp at h
      | cons x pre =>
        cases pre with
        | nil =>
          simp only [List.cons_append, List.nil_append, List.cons.injEq, Event.patch.injEq] at h
          obtain ⟨hx, ⟨hpid, hq, -⟩, -⟩ := h
          exact ⟨[], item.id, by simp [← hx, ← hpid, ← hq]⟩
        | cons y pre =>
          simp only [List.cons_append, List.cons.injEq] at h
          obtain ⟨hx, hy, hrest⟩ := h
          obtain ⟨pre', id, hpre⟩ := ih _ _ _ _ _ _ hrest
          exact ⟨x :: y :: pre', id, by simp [hpre]⟩

/-- C5 (amended): in every run of `POST /`, each stock-decrement call is
issued inside the open transaction: after `beginTransaction` and the insert
of the order row, immediately after the insert of the line item it belongs to
(same product, the quantity it negates), and before any commit or rollback.
No stock call follows the commit. -/
theorem placeOrder_decrement_inside_transaction (A : NumOps N) (env : Env N) (db : Db N)
    (req : OrderRequest) (uuid : Nat → String) (pre post : List Event) (pid : String) (q : Int)
    (accepted : Bool)
    (h : (placeOrder A env db req uuid).log = pre ++ Event.patch pid q accepted :: post) :
    Event.commit ∉ pre ∧ Event.rollback ∉ pre ∧ Event.beginTransaction ∈ pre ∧
      Event.insertOrder (uuid 0) ∈ pre ∧
      ∃ pre' id, pre = pre' ++ [Event.insertItem id pid (-q)] := by
  have hmem : Event.patch pid q accepted ∈ (placeOrder A env db req uuid).log := by
    rw [h]; simp
  have hcall := mem_stockCalls_of_patch hmem
  -- the shape shared by the two runs that reach the line-item loop
  have key : ∀ (its : List (OrderItem N)) (last : Event), last = Event.commit ∨ last = Event.rollback →
      Event.beginTransaction ::
          (req.items.map (fun l => Event.get l.product_id)
            ++ (Event.insertOrder (uuid 0) :: (insertItems A env db uuid its 0).log ++ [last]))
        = pre ++ Event.patch pid q accepted :: post →
      Event.commit ∉ pre ∧ Event.rollback ∉ pre ∧ Event.beginTransaction ∈ pre ∧
        Event.insertOrder (uuid 0) ∈ pre ∧
        ∃ pre' id, pre = pre' ++ [Event.insertItem id pid (-q)] := by
    intro its last hlast hshape
    have hshape' : (Event.beginTransaction :: (req.items.map (fun l => Event.get l.product_id)
        ++ [Event.insertOrder (uuid 0)])) ++ ((insertItems A env db uuid its 0).log ++ [last])
        = pre ++ Event.patch pid q accepted :: post := by
      rw [← hshape]; simp
    obtain ⟨m, hpre, hrest⟩ := split_after_prefix hshape' (by simp)
    obtain ⟨post', hrun⟩ := split_before_last hrest (by rcases hlast with rfl | rfl <;> simp)
    obtain ⟨pre', id, hm⟩ := insertItems_patch_split A env db uuid its 0 _ _ _ _ _ hrun
    have hevents : ∀ e ∈ m, (∃ id pid q, e = Event.insertItem id pid q) ∨
        (∃ pid q a, e = Event.patch pid q a) := by
      intro e he
      exact insertItems_log_events A env db uuid its 0 e (by rw [hrun]; simp [he])
    have hc : Event.commit ∉ m := by
      intro hin
      rcases hevents _ hin with ⟨_, _, _, h⟩ | ⟨_, _, _, h⟩ <;> cases h
    have hr : Event.rollback ∉ m := by
      intro hin
      rcases hevents _ hin with ⟨_, _, _, h⟩ | ⟨_, _, _, h⟩ <;> cases h
    subst hpre
    refine ⟨by simp [hc], by simp [hr], by simp, by simp, ?_⟩
    exact ⟨(Event.beginTransaction :: (req.items.map (fun l => Event.get l.product_id)
      ++ [Event.insertOrder (uuid 0)])) ++ pre', id, by rw [hm]; simp⟩
  cases hvalid : validOrderRequest env req with
  | false =>
    simp [placeOrder, hvalid, stockCalls] at hcall
  | true =>
    cases hout : (checkItems A env (uuid 0) uuid req.items 0 A.zero []).outcome with
    | rejected resp =>
      exfalso
      rw [placeOrder_of_rejected A env db req uuid resp hvalid hout] at hcall
      simp [stockCalls, checkItems_stockCalls] at hcall
    | passed t its =>
      obtain ⟨hlog, -⟩ := checkItems_passed A env (uuid 0) uuid _ _ _ _ _ _ hout
      cases hacc : insertRejected env db uuid 0 with
      | true =>
        exfalso
        rw [placeOrder_order_rejected A env db req uuid t its hvalid hout hacc] at hcall
        simp [stockCalls, stockCalls_append, checkItems_stockCalls] at hcall
      | false =>
        cases hrun : (insertItems A env db uuid its 0).completed with
        | false =>
          rw [placeOrder_item_rejected A env db req uuid t its hvalid hout hacc hrun, hlog] at h
          exact key its Event.rollback (Or.inr rfl) h
        | true =>
          rw [placeOrder_committed A env db req uuid t its hvalid hout hacc hrun, hlog] at h
          exact key its Event.commit (Or.inl rfl) h

/-! ## Amounts -/

theorem checkItems_totals (A : NumOps N) (env : Env N) (orderId : String) (uuid : Nat → String) :
    ∀ (items : List BasketLine) (k : Nat) (total : N) (acc : List (OrderItem N)) (t : N)
      (its : List (OrderItem N)),
      (checkItems A env orderId uuid items k total acc).outcome = .passed t its →
      ∃ new, its = acc ++ new ∧
        t = (new.map (fun i => i.total_price)).foldl A.add total ∧
        ∀ i ∈ new, i.total_price = A.mul i.unit_price i.quantity := by
  intro items
  induction items with
  | nil =>
    intro k total acc t its h
    simp only [checkItems, Checked.passed.injEq] at h
    exact ⟨[], by simp [h.2], by simp [h.1], by simp⟩
  | cons item rest ih =>
    intro k total acc t its h
    simp only [checkItems] at h
    split at h
    · simp at h
    · rename_i product hp
      split at h
      · simp at h
      · obtain ⟨new, hnew, ht, hmul⟩ := ih _ _ _ _ _ h
        refine ⟨(⟨uuid (k + 1), orderId, item.product_id, product.name, item.quantity,
          product.price, A.mul product.price item.quantity⟩ : OrderItem N) :: new,
          by simp [hnew], by simp [ht], ?_⟩
        intro i hi
        rcases List.mem_cons.mp hi with rfl | hi
        · rfl
        · exact hmul i hi

/-- Amounts of a `201` answer, for whatever arithmetic `A` stands for: each
line total is `unit_price * quantity` as `A.mul` computes it, and the order
total is the value the store keeps for the left-to-right `A.add` sum of the
line totals. -/
theorem placeOrder_totals (A : NumOps N) (env : Env N) (db : Db N) (req : OrderRequest)
    (uuid : Nat → String) (o : OrderView N)
    (h : (placeOrder A env db req uuid).response = .created o) :
    (∀ i ∈ o.items, i.total_price = A.mul i.unit_price i.quantity) ∧
      o.order.total_amount
        = A.toDecimal ((o.items.map (fun i => i.total_price)).foldl A.add A.zero) := by
  obtain ⟨hvalid, t, its, hout, -, -, hacc, hrun⟩ := placeOrder_created_inv A env db req uuid o h
  obtain ⟨new, hnew, ht, hmul⟩ := checkItems_totals A env (uuid 0) uuid _ _ _ _ _ _ hout
  simp only [List.nil_append] at hnew
  subst hnew
  rw [placeOrder_committed A env db req uuid t its hvalid hout hacc hrun] at h
  simp only [Response.created.injEq] at h
  subst h
  exact ⟨hmul, by rw [ht]⟩

/-! ## `PATCH /:id/status` (C9, C10) -/

theorem restoreStock_log_events (env : Env N) :
    ∀ (items : List (OrderItem N)) (k : Nat), ∀ e ∈ (restoreStock env items k).log,
      ∃ i ∈ items, ∃ a, e = Event.patch i.product_id i.quantity a := by
  intro items
  induction items with
  | nil => intro k e he; simp [restoreStock] at he
  | cons item rest ih =>
    intro k e he
    simp only [restoreStock] at he
    split at he
    · simp only [List.mem_cons] at he
      rcases he with rfl | he
      · exact ⟨item, by simp, true, rfl⟩
      · obtain ⟨i, hi, a, ha⟩ := ih _ e he
        exact ⟨i, by simp [hi], a, ha⟩
    · simp only [List.mem_singleton] at he
      exact ⟨item, by simp, false, he⟩
    · simp only [List.mem_singleton] at he
      exact ⟨item, by simp, false, he⟩

theorem restoreStock_accepted (env : Env N) :
    ∀ (items : List (OrderItem N)) (k : Nat),
      (∀ n, ∀ i ∈ items, env.adjust n i.product_id i.quantity = .ok) →
      restoreStock env items k =
        { log := items.map (fun i => Event.patch i.product_id i.quantity true)
          completed := true } := by
  intro items
  induction items with
  | nil => intro k _; rfl
  | cons item rest ih =>
    intro k h
    simp only [restoreStock, h k item (by simp), List.map_cons]
    rw [ih (k + 1) (fun n i hi => h n i (by simp [hi]))]

theorem stockCalls_map_patch (items : List (OrderItem N)) (a : Bool) :
    stockCalls (items.map (fun i => Event.patch i.product_id i.quantity a))
      = items.map (fun i => (i.product_id, i.quantity)) := by
  induction items with
  | nil => rfl
  | cons i rest ih => simp [stockCalls, ih]

theorem select_updated_order (db : Db N) (id status : String) (existing : OrderRow N)
    (hex : (db.orders.filter (fun o => o.id == id)).head? = some existing) :
    ((setStatus db id status).orders.filter (fun o => o.id == id)).head?
      = some { existing with status := status } := by
  have hid : (existing.id == id) = true := by
    have hmem : existing ∈ db.orders.filter (fun o => o.id == id) := List.mem_of_mem_head? hex
    exact (List.mem_filter.mp hmem).2
  have hcomp : ((fun o : OrderRow N => o.id == id) ∘
      fun o => if (o.id == id) = true then { o with status := status } else o)
      = fun o => o.id == id := by
    funext o
    by_cases h : o.id = id <;> simp [h]
  simp only [setStatus, List.filter_map, hcomp, List.head?_map, hex, Option.map_some', hid,
    if_true]

theorem setStatus_status (db : Db N) (id status : String) :
    ∀ o ∈ (setStatus db id status).orders, o.id = id → o.status = status := by
  intro o ho hid
  simp only [setStatus, List.mem_map] at ho
  obtain ⟨o', -, rfl⟩ := ho
  by_cases h : o'.id = id
  · simp [h]
  · simp [h] at hid

/-- The run of `PATCH /:id/status` for an existing order and a valid status. -/
theorem updateStatus_of_existing (env : Env N) (db : Db N) (id status : String)
    (existing : OrderRow N) (hid : id ≠ "") (hstatus : validStatus status = true)
    (hex : (db.orders.filter (fun o => o.id == id)).head? = some existing)
    (run : RestoreRun)
    (hrun : run = if (status == "cancelled" && existing.status != "cancelled") = true then
        restoreStock env (db.items.filter (fun i => i.order_id == id)) 0
      else { log := [], completed := true }) :
    updateStatus env db id status =
      if run.completed = true then
        { response := .ok { order := { existing with status := status }
                            items := db.items.filter (fun i => i.order_id == id) }
          db := setStatus db id status
          log := run.log ++ [Event.updateStatus id status] }
      else
        { response := .error 500 "Failed to update order status", db := db, log := run.log } := by
  have hid' : (id != "") = true := by simpa using hid
  subst hrun
  simp only [updateStatus, hid', hstatus, Bool.and_self, if_true, hex,
    select_updated_order db id status existing hex]
  rfl

theorem cancelling_iff (status previous : String) :
    (status == "cancelled" && previous != "cancelled") = true
      ↔ status = "cancelled" ∧ previous ≠ "cancelled" := by
  simp

/-- The run of `PATCH /:id/status` in which no restoration call fails: for an
existing order and a valid new status, with a product service that accepts
the calls for the order's line items, stock calls are issued exactly when the
new status is `cancelled` and the stored status is not `cancelled`: then one
call per line item of the order, in order, with that line's product and
`+quantity`, and no call otherwise; afterwards the stored status of the order
is the new status. -/
theorem updateStatus_restores_stock (env : Env N) (db : Db N) (id status : String)
    (existing : OrderRow N) (hid : id ≠ "") (hstatus : validStatus status = true)
    (hex : (db.orders.filter (fun o => o.id == id)).head? = some existing)
    (haccept : ∀ n, ∀ i ∈ db.items, i.order_id = id →
      env.adjust n i.product_id i.quantity = .ok) :
    stockCalls (updateStatus env db id status).log
        = (if status = "cancelled" ∧ existing.status ≠ "cancelled" then
            (db.items.filter (fun i => i.order_id == id)).map
              (fun i => (i.product_id, i.quantity))
          else []) ∧
      (db.items.filter (fun i => i.order_id == id) ≠ [] →
        (stockCalls (updateStatus env db id status).log ≠ []
          ↔ status = "cancelled" ∧ existing.status ≠ "cancelled")) ∧
      (∀ o ∈ (updateStatus env db id status).db.orders, o.id = id → o.status = status) ∧
      (∃ o ∈ (updateStatus env db id status).db.orders, o.id = id) := by
  have haccept' : ∀ n, ∀ i ∈ db.items.filter (fun i => i.order_id == id),
      env.adjust n i.product_id i.quantity = .ok := by
    intro n i hi
    obtain ⟨hmem, hparent⟩ := List.mem_filter.mp hi
    exact haccept n i hmem (by simpa using hparent)
  have hrestore := restoreStock_accepted env _ 0 haccept'
  have hcalls : stockCalls (updateStatus env db id status).log
      = (if status = "cancelled" ∧ existing.status ≠ "cancelled" then
          (db.items.filter (fun i => i.order_id == id)).map
            (fun i => (i.product_id, i.quantity))
        else []) ∧
      (updateStatus env db id status).db = setStatus db id status := by
    rw [updateStatus_of_existing env db id status existing hid hstatus hex _ rfl]
    by_cases hc : status = "cancelled" ∧ existing.status ≠ "cancelled"
    · rw [if_pos ((cancelling_iff _ _).mpr hc), if_pos hc, hrestore]
      simp [stockCalls, stockCalls_append, stockCalls_map_patch]
    · rw [if_neg (fun h => hc ((cancelling_iff _ _).mp h)), if_neg hc]
      simp [stockCalls]
  refine ⟨hcalls.1, ?_, ?_, ?_⟩
  · intro hitems
    rw [hcalls.1]
    by_cases hc : status = "cancelled" ∧ existing.status ≠ "cancelled"
    · simp only [if_pos hc, ne_eq, List.map_eq_nil_iff, hitems, not_false_eq_true, true_iff]
      exact hc
    · simp [if_neg hc, hc]
  · rw [hcalls.2]
    exact setStatus_status db id status
  · rw [hcalls.2]
    refine ⟨{ existing with status := status }, ?_, ?_⟩
    · exact (List.mem_filter.mp
        (List.mem_of_mem_head? (select_updated_order db id status existing hex))).1
    · have hmem : existing ∈ db.orders.filter (fun o => o.id == id) :=
        List.mem_of_mem_head? hex
      simpa using (List.mem_filter.mp hmem).2

/-- C10 (amended): when `PATCH /:id/status` cancels an order that is not
cancelled, the restoration calls are issued before the status is updated in
the store (no call follows the update), and when the product service accepts
every restoration call the stored status of the order is `cancelled`
afterwards and the answer is `200` with the updated order and its line
items. -/
theorem updateStatus_cancel (env : Env N) (db : Db N) (id : String) (existing : OrderRow N)
    (hid : id ≠ "")
    (hex : (db.orders.filter (fun o => o.id == id)).head? = some existing)
    (hprevious : existing.status ≠ "cancelled") :
    (∀ pre post pid q a,
        (updateStatus env db id "cancelled").log = pre ++ Event.patch pid q a :: post →
        Event.updateStatus id "cancelled" ∉ pre) ∧
      ((∀ n, ∀ i ∈ db.items, i.order_id = id → env.adjust n i.product_id i.quantity = .ok) →
        (updateStatus env db id "cancelled").response
            = .ok { order := { existing with status := "cancelled" }
                    items := db.items.filter (fun i => i.order_id == id) } ∧
          (∀ o ∈ (updateStatus env db id "cancelled").db.orders,
            o.id = id → o.status = "cancelled") ∧
          (updateStatus env db id "cancelled").log
            = (db.items.filter (fun i => i.order_id == id)).map
                (fun i => Event.patch i.product_id i.quantity true)
              ++ [Event.updateStatus id "cancelled"]) := by
  have hc : ("cancelled" == "cancelled" && existing.status != "cancelled") = true :=
    (cancelling_iff _ _).mpr ⟨rfl, hprevious⟩
  have hrun := updateStatus_of_existing env db id "cancelled" existing hid (by decide) hex _ rfl
  rw [if_pos hc] at hrun
  constructor
  · intro pre post pid q a hlog
    have hevents := restoreStock_log_events env (db.items.filter (fun i => i.order_id == id)) 0
    have hpre : ∀ e ∈ pre, e ∈ (restoreStock env
        (db.items.filter (fun i => i.order_id == id)) 0).log := by
      rw [hrun] at hlog
      split at hlog
      · obtain ⟨post', hsplit⟩ := split_before_last hlog (by simp)
        intro e he
        rw [hsplit]
        simp [he]
      · intro e he
        simp only at hlog
        rw [hlog]
        simp [he]
    intro hmem
    obtain ⟨_, -, _, h⟩ := hevents _ (hpre _ hmem)
    cases h
  · intro haccept
    have haccept' : ∀ n, ∀ i ∈ db.items.filter (fun i => i.order_id == id),
        env.adjust n i.product_id i.quantity = .ok := by
      intro n i hi
      obtain ⟨hmem, hparent⟩ := List.mem_filter.mp hi
      exact haccept n i hmem (by simpa using hparent)
    rw [restoreStock_accepted env _ 0 haccept'] at hrun
    simp only [if_true] at hrun
    rw [hrun]
    exact ⟨rfl, setStatus_status db id "cancelled", rfl⟩

/-! ## Concrete runs -/

theorem not_found_ne_insufficient (id name : String) :
    "Product not found: " ++ id ≠ "Insufficient stock for product: " ++ name := by
  intro h
  have hhead := congrArg List.head? (congrArg String.data h)
  rw [String.data_append, String.data_append] at hhead
  have hleft : ("Product not found: ".data ++ id.data).head? = some 'P' := rfl
  have hright : ("Insufficient stock for product: ".data ++ name.data).head? = some 'I' := rfl
  rw [hleft, hright] at hhead
  exact absurd hhead (by decide)

theorem sampleEnv_sufficient (env : Env Int) (henv : env.getItem = (sampleEnv 50).getItem) :
    ∀ l ∈ [(⟨"prod-001", 2⟩ : BasketLine), ⟨"prod-002", 1⟩],
      ∃ p, env.getItem l.product_id = .ok p ∧ l.quantity ≤ p.stock := by
  intro l hl
  rw [henv]
  simp only [List.mem_cons, List.mem_singleton, List.not_mem_nil, or_false] at hl
  rcases hl with rfl | rfl
  · exact ⟨⟨"Laptop", 9999, 50⟩, by decide, by decide⟩
  · exact ⟨⟨"Mouse", 500, 10⟩, by decide, by decide⟩

/-- C2 (counterexample): the basket `[ghost × 1, prod-001 × 2]` has a line
asking for more than the reported stock (`prod-001`: 2 requested, 1
available), yet `POST /` answers "Product not found: ghost", which is not an
"Insufficient stock" error. -/
theorem placeOrder_understocked_counterexample :
    validOrderRequest (sampleEnv 1) (sampleRequest [⟨"ghost", 1⟩, ⟨"prod-001", 2⟩]) = true ∧
      (sampleEnv 1).getItem "prod-001" = .ok ⟨"Laptop", 9999, 1⟩ ∧
      (placeOrder centOps (sampleEnv 1) emptyDb
          (sampleRequest [⟨"ghost", 1⟩, ⟨"prod-001", 2⟩]) sampleUuid).response
        = .error 400 "Product not found: ghost" ∧
      ¬ ∃ name, (placeOrder centOps (sampleEnv 1) emptyDb
          (sampleRequest [⟨"ghost", 1⟩, ⟨"prod-001", 2⟩]) sampleUuid).response
        = .error 400 ("Insufficient stock for product: " ++ name) := by
  refine ⟨by decide, by decide, by decide, ?_⟩
  rintro ⟨name, h⟩
  have hresp : (placeOrder centOps (sampleEnv 1) emptyDb
      (sampleRequest [⟨"ghost", 1⟩, ⟨"prod-001", 2⟩]) sampleUuid).response
      = .error 400 ("Product not found: " ++ "ghost") := by decide
  rw [hresp] at h
  simp only [Response.error.injEq, true_and] at h
  exact not_found_ne_insufficient _ _ h

/-- C2 (witness): `[prod-001 × 2]` with one laptop in stock is refused with
"Insufficient stock for product: Laptop"; nothing is written, no stock call
is made. -/
theorem placeOrder_understocked_witness :
    validOrderRequest (sampleEnv 1) (sampleRequest [⟨"prod-001", 2⟩]) = true ∧
      (sampleEnv 1).getItem "prod-001" = .ok ⟨"Laptop", 9999, 1⟩ ∧
      (placeOrder centOps (sampleEnv 1) emptyDb (sampleRequest [⟨"prod-001", 2⟩])
          sampleUuid).db = emptyDb ∧
      stockCalls (placeOrder centOps (sampleEnv 1) emptyDb (sampleRequest [⟨"prod-001", 2⟩])
          sampleUuid).log = [] ∧
      ∃ l ∈ (sampleRequest [⟨"prod-001", 2⟩]).items, ∃ p,
        (sampleEnv 1).getItem l.product_id = .ok p ∧ p.stock < l.quantity ∧
        (placeOrder centOps (sampleEnv 1) emptyDb (sampleRequest [⟨"prod-001", 2⟩])
            sampleUuid).response
          = .error 400 ("Insufficient stock for product: " ++ p.name) :=
  have h := placeOrder_understocked centOps (sampleEnv 1) emptyDb
    (sampleRequest [⟨"prod-001", 2⟩]) sampleUuid (by decide) [] [] ⟨"prod-001", 2⟩
    ⟨"Laptop", 9999, 1⟩ rfl (by decide) (by decide)
  ⟨by decide, by decide, h.1, h.2.1, h.2.2.2.2 (by simp)⟩

/-- C3 (counterexample): the basket `[prod-001 × 2, ghost × 1]` names a
product the service does not know, yet with one laptop in stock `POST /`
answers "Insufficient stock for product: Laptop", which is not a "Product not
found" error. -/
theorem placeOrder_unknown_product_counterexample :
    validOrderRequest (sampleEnv 1) (sampleRequest [⟨"prod-001", 2⟩, ⟨"ghost", 1⟩]) = true ∧
      (sampleEnv 1).getItem "ghost" = .notFound ∧
      (placeOrder centOps (sampleEnv 1) emptyDb
          (sampleRequest [⟨"prod-001", 2⟩, ⟨"ghost", 1⟩]) sampleUuid).response
        = .error 400 "Insufficient stock for product: Laptop" ∧
      ¬ ∃ id, (placeOrder centOps (sampleEnv 1) emptyDb
          (sampleRequest [⟨"prod-001", 2⟩, ⟨"ghost", 1⟩]) sampleUuid).response
        = .error 400 ("Product not found: " ++ id) := by
  refine ⟨by decide, by decide, by decide, ?_⟩
  rintro ⟨id, h⟩
  have hresp : (placeOrder centOps (sampleEnv 1) emptyDb
      (sampleRequest [⟨"prod-001", 2⟩, ⟨"ghost", 1⟩]) sampleUuid).response
      = .error 400 ("Insufficient stock for product: " ++ "Laptop") := by decide
  rw [hresp] at h
  simp only [Response.error.injEq, true_and] at h
  exact not_found_ne_insufficient _ _ h.symm

/-- C3 (witness): `[ghost × 1]` is refused with "Product not found: ghost";
nothing is written, no stock call is made. -/
theorem placeOrder_unknown_product_witness :
    validOrderRequest (sampleEnv 50) (sampleRequest [⟨"ghost", 1⟩]) = true ∧
      (sampleEnv 50).getItem "ghost" = .notFound ∧
      (placeOrder centOps (sampleEnv 50) emptyDb (sampleRequest [⟨"ghost", 1⟩])
          sampleUuid).db = emptyDb ∧
      stockCalls (placeOrder centOps (sampleEnv 50) emptyDb (sampleRequest [⟨"ghost", 1⟩])
          sampleUuid).log = [] ∧
      ∃ l ∈ (sampleRequest [⟨"ghost", 1⟩]).items,
        getProductDetails (sampleEnv 50) l.product_id = none ∧
        (placeOrder centOps (sampleEnv 50) emptyDb (sampleRequest [⟨"ghost", 1⟩])
            sampleUuid).response
          = .error 400 ("Product not found: " ++ l.product_id) :=
  have h := placeOrder_unknown_product centOps (sampleEnv 50) emptyDb
    (sampleRequest [⟨"ghost", 1⟩]) sampleUuid (by decide) [] [] ⟨"ghost", 1⟩ rfl (by decide)
  ⟨by decide, by decide, h.1, h.2.1, h.2.2.2.2 (by simp)⟩

/-- C4 (counterexample): for `[prod-001 × 2, prod-002 × 1]` the store rejects
the insert of the second line item; the request fails with 500 and nothing is
stored, but the decrement of the first line, `("prod-001", -2)`, has already
been sent to the product service. -/
theorem placeOrder_insert_rejected_counterexample :
    insertRejected secondItemRejectedEnv emptyDb sampleUuid 2 = true ∧
      (placeOrder centOps secondItemRejectedEnv emptyDb
          (sampleRequest [⟨"prod-001", 2⟩, ⟨"prod-002", 1⟩]) sampleUuid).response
        = .error 500 "Failed to create order" ∧
      (placeOrder centOps secondItemRejectedEnv emptyDb
          (sampleRequest [⟨"prod-001", 2⟩, ⟨"prod-002", 1⟩]) sampleUuid).db = emptyDb ∧
      stockCalls (placeOrder centOps secondItemRejectedEnv emptyDb
          (sampleRequest [⟨"prod-001", 2⟩, ⟨"prod-002", 1⟩]) sampleUuid).log
        = [("prod-001", -2)] ∧
      stockCalls (placeOrder centOps secondItemRejectedEnv emptyDb
          (sampleRequest [⟨"prod-001", 2⟩, ⟨"prod-002", 1⟩]) sampleUuid).log ≠ [] := by
  decide

/-- C4 (witness): the same run, through the general statement with `j = 2`. -/
theorem placeOrder_insert_rejected_witness :
    validOrderRequest secondItemRejectedEnv
        (sampleRequest [⟨"prod-001", 2⟩, ⟨"prod-002", 1⟩]) = true ∧
      insertRejected secondItemRejectedEnv emptyDb sampleUuid 2 = true ∧
      (∀ i, i < 2 → insertRejected secondItemRejectedEnv emptyDb sampleUuid i = false) ∧
      (placeOrder centOps secondItemRejectedEnv emptyDb
          (sampleRequest [⟨"prod-001", 2⟩, ⟨"prod-002", 1⟩]) sampleUuid).db = emptyDb ∧
      (placeOrder centOps secondItemRejectedEnv emptyDb
          (sampleRequest [⟨"prod-001", 2⟩, ⟨"prod-002", 1⟩]) sampleUuid).response
        = .error 500 "Failed to create order" ∧
      Event.commit ∉ (placeOrder centOps secondItemRejectedEnv emptyDb
          (sampleRequest [⟨"prod-001", 2⟩, ⟨"prod-002", 1⟩]) sampleUuid).log ∧
      stockCalls (placeOrder centOps secondItemRejectedEnv emptyDb
          (sampleRequest [⟨"prod-001", 2⟩, ⟨"prod-002", 1⟩]) sampleUuid).log
        = ((sampleRequest [⟨"prod-001", 2⟩, ⟨"prod-002", 1⟩]).items.take (2 - 1)).map
            (fun l => (l.product_id, -l.quantity)) :=
  ⟨by decide, by decide, by decide,
    placeOrder_insert_rejected centOps secondItemRejectedEnv emptyDb
      (sampleRequest [⟨"prod-001", 2⟩, ⟨"prod-002", 1⟩]) sampleUuid (by decide)
      (sampleEnv_sufficient secondItemRejectedEnv rfl) 2 (by decide) (by decide) (by decide)⟩

/-- C5 (counterexample): for `[prod-001 × 2]` with 50 laptops in stock the
effects of `POST /` are, in order: begin, read of the product, insert of the
order row, insert of the line item, the stock call `("prod-001", -2)`, commit.
The decrement is issued before the commit, not after it. -/
theorem placeOrder_decrement_counterexample :
    (placeOrder centOps (sampleEnv 50) emptyDb (sampleRequest [⟨"prod-001", 2⟩])
        sampleUuid).log
      = [Event.beginTransaction, Event.get "prod-001", Event.insertOrder "id-0",
          Event.insertItem "id-1" "prod-001" 2, Event.patch "prod-001" (-2) true,
          Event.commit] ∧
      ¬ ∀ pre post pid q a,
        (placeOrder centOps (sampleEnv 50) emptyDb (sampleRequest [⟨"prod-001", 2⟩])
            sampleUuid).log = pre ++ Event.patch pid q a :: post →
        Event.commit ∈ pre := by
  refine ⟨by decide, fun h => ?_⟩
  have := h [Event.beginTransaction, Event.get "prod-001", Event.insertOrder "id-0",
    Event.insertItem "id-1" "prod-001" 2] [Event.commit] "prod-001" (-2) true (by decide)
  exact absurd this (by decide)

/-- C5 (witness): in that run the stock call comes right after the insert of
line item `id-1`, with the transaction open and not yet committed. -/
theorem placeOrder_decrement_witness :
    (placeOrder centOps (sampleEnv 50) emptyDb (sampleRequest [⟨"prod-001", 2⟩])
        sampleUuid).log
      = [Event.beginTransaction, Event.get "prod-001", Event.insertOrder "id-0",
          Event.insertItem "id-1" "prod-001" 2] ++ Event.patch "prod-001" (-2) true ::
          [Event.commit] ∧
      Event.commit ∉ [Event.beginTransaction, Event.get "prod-001", Event.insertOrder "id-0",
        Event.insertItem "id-1" "prod-001" 2] ∧
      ∃ pre' id, [Event.beginTransaction, Event.get "prod-001", Event.insertOrder "id-0",
        Event.insertItem "id-1" "prod-001" 2] = pre' ++ [Event.insertItem id "prod-001" (- -2)] :=
  have h := placeOrder_decrement_inside_transaction centOps (sampleEnv 50) emptyDb
    (sampleRequest [⟨"prod-001", 2⟩]) sampleUuid
    [Event.beginTransaction, Event.get "prod-001", Event.insertOrder "id-0",
      Event.insertItem "id-1" "prod-001" 2] [Event.commit] "prod-001" (-2) true (by decide)
  ⟨by decide, h.1, h.2.2.2.2⟩

/-- C6 (witness): the basket `[prod-001 × 2]` with price 99.99 and 50 in stock
is answered `201` and triggers exactly the stock call `("prod-001", -2)`. -/
theorem placeOrder_stock_calls_witness :
    (placeOrder centOps (sampleEnv 50) emptyDb (sampleRequest [⟨"prod-001", 2⟩])
        sampleUuid).response
      = .created { order := { pendingOrder with total_amount := 19998 }
                   items := [laptopItem] } ∧
      stockCalls (placeOrder centOps (sampleEnv 50) emptyDb (sampleRequest [⟨"prod-001", 2⟩])
          sampleUuid).log = [("prod-001", -2)] :=
  ⟨by decide,
    placeOrder_stock_calls centOps (sampleEnv 50) emptyDb (sampleRequest [⟨"prod-001", 2⟩])
      sampleUuid { order := { pendingOrder with total_amount := 19998 }, items := [laptopItem] }
      (by decide)⟩

/-- C7 (witness): with an unreachable product service the order for
`[prod-001 × 2, prod-002 × 1]` is still created and committed. -/
theorem placeOrder_survives_failed_decrements_witness :
    validOrderRequest (sampleEnv 50) (sampleRequest [⟨"prod-001", 2⟩, ⟨"prod-002", 1⟩]) = true ∧
      (∀ k, k ≤ 2 → insertRejected (sampleEnv 50) emptyDb sampleUuid k = false) ∧
      ∃ o : OrderView Int, o.order.id = sampleUuid 0 ∧
        o.items.length = (sampleRequest [⟨"prod-001", 2⟩, ⟨"prod-002", 1⟩]).items.length ∧
        ∀ adjust : Nat → String → Int → PatchOutcome,
          (placeOrder centOps { sampleEnv 50 with adjust := adjust } emptyDb
              (sampleRequest [⟨"prod-001", 2⟩, ⟨"prod-002", 1⟩]) sampleUuid).response
            = .created o ∧
          (placeOrder centOps { sampleEnv 50 with adjust := adjust } emptyDb
              (sampleRequest [⟨"prod-001", 2⟩, ⟨"prod-002", 1⟩]) sampleUuid).db
            = { orders := emptyDb.orders ++ [o.order]
                items := emptyDb.items ++ o.items.map (storeItem centOps) } ∧
          Event.commit ∈ (placeOrder centOps { sampleEnv 50 with adjust := adjust } emptyDb
              (sampleRequest [⟨"prod-001", 2⟩, ⟨"prod-002", 1⟩]) sampleUuid).log ∧
          Event.rollback ∉ (placeOrder centOps { sampleEnv 50 with adjust := adjust } emptyDb
              (sampleRequest [⟨"prod-001", 2⟩, ⟨"prod-002", 1⟩]) sampleUuid).log :=
  ⟨by decide, by decide,
    placeOrder_survives_failed_decrements centOps (sampleEnv 50) emptyDb
      (sampleRequest [⟨"prod-001", 2⟩, ⟨"prod-002", 1⟩]) sampleUuid (by decide)
      (sampleEnv_sufficient (sampleEnv 50) rfl) (by decide)⟩

/-- C8 (witness): the order returned for `[prod-001 × 2, prod-002 × 1]` when
no stock call gets through is pending and carries the two lines as
requested. -/
theorem placeOrder_created_order_witness :
    (placeOrder centOps unreachableEnv emptyDb
        (sampleRequest [⟨"prod-001", 2⟩, ⟨"prod-002", 1⟩]) sampleUuid).response
      = .created { order := pendingOrder, items := [laptopItem, mouseItem] } ∧
      pendingOrder.status = "pending" ∧ pendingOrder.id = sampleUuid 0 ∧
      List.Forall₂
        (fun (line : BasketLine) (item : OrderItem Int) =>
          item.product_id = line.product_id ∧ item.quantity = line.quantity ∧
          item.order_id = pendingOrder.id ∧
          ∃ p, unreachableEnv.getItem line.product_id = .ok p ∧ item.product_name = p.name ∧
            item.unit_price = p.price)
        (sampleRequest [⟨"prod-001", 2⟩, ⟨"prod-002", 1⟩]).items [laptopItem, mouseItem] :=
  ⟨by decide,
    placeOrder_created_order centOps unreachableEnv emptyDb
      (sampleRequest [⟨"prod-001", 2⟩, ⟨"prod-002", 1⟩]) sampleUuid
      { order := pendingOrder, items := [laptopItem, mouseItem] } (by decide)⟩

/-- C9 (the code at the failing input): the pending order `id-0` has the two
line items `prod-001 × 2` and `prod-002 × 1`, and the product service rejects
the first restoration call. `PATCH /id-0/status` with `cancelled` issues the
call `("prod-001", 2)` only, not one call per line item, answers 500 and
leaves the stored status `pending`. `DELETE /id-0` on the same store, with
the same product service, goes through `updateProductStock`: it issues one
call per line item, the rejected one included, and completes. -/
theorem updateStatus_aborts_on_rejected_call :
    validStatus "cancelled" = true ∧
      (placedDb.orders.filter (fun o => o.id == "id-0")).head? = some pendingOrder ∧
      (placedDb.items.filter (fun i => i.order_id == "id-0")).map
          (fun i => (i.product_id, i.quantity))
        = [("prod-001", 2), ("prod-002", 1)] ∧
      (updateStatus firstCallRejectedEnv placedDb "id-0" "cancelled").log
        = [Event.patch "prod-001" 2 false] ∧
      stockCalls (updateStatus firstCallRejectedEnv placedDb "id-0" "cancelled").log
        ≠ (placedDb.items.filter (fun i => i.order_id == "id-0")).map
            (fun i => (i.product_id, i.quantity)) ∧
      (updateStatus firstCallRejectedEnv placedDb "id-0" "cancelled").response
        = .error 500 "Failed to update order status" ∧
      (updateStatus firstCallRejectedEnv placedDb "id-0" "cancelled").db = placedDb ∧
      (∀ o ∈ (updateStatus firstCallRejectedEnv placedDb "id-0" "cancelled").db.orders,
        o.id = "id-0" → o.status = "pending") ∧
      stockCalls (deleteOrder firstCallRejectedEnv placedDb "id-0").log
        = [("prod-001", 2), ("prod-002", 1)] ∧
      (deleteOrder firstCallRejectedEnv placedDb "id-0").response
        = .message "Order deleted successfully" := by
  decide

/-- Cancelling the pending order `id-0` with a product service that accepts
the calls issues `("prod-001", 2)` and `("prod-002", 1)` and
leaves the order cancelled. -/
theorem updateStatus_restores_stock_witness :
    validStatus "cancelled" = true ∧
      (placedDb.orders.filter (fun o => o.id == "id-0")).head? = some pendingOrder ∧
      stockCalls (updateStatus (sampleEnv 50) placedDb "id-0" "cancelled").log
        = (if "cancelled" = "cancelled" ∧ pendingOrder.status ≠ "cancelled" then
            (placedDb.items.filter (fun i => i.order_id == "id-0")).map
              (fun i => (i.product_id, i.quantity))
          else []) ∧
      (∀ o ∈ (updateStatus (sampleEnv 50) placedDb "id-0" "cancelled").db.orders,
        o.id = "id-0" → o.status = "cancelled") :=
  have h := updateStatus_restores_stock (sampleEnv 50) placedDb "id-0" "cancelled" pendingOrder
    (by decide) (by decide) (by decide) (fun _ _ _ _ => rfl)
  ⟨by decide, by decide, h.1, h.2.2.1⟩

/-- C10 (counterexample): cancelling the pending single-item order `id-0`.
With every call accepted the effects are the stock call `("prod-001", 2)` and
then the status update: the call is issued before the update, not after it.
With the product service unreachable the answer is 500 and the stored status
stays `pending`: the order is not cancelled and no order is returned. -/
theorem updateStatus_cancel_counterexample :
    (updateStatus (sampleEnv 50) singleItemDb "id-0" "cancelled").log
      = [Event.patch "prod-001" 2 true, Event.updateStatus "id-0" "cancelled"] ∧
      (updateStatus unreachableEnv singleItemDb "id-0" "cancelled").response
        = .error 500 "Failed to update order status" ∧
      (updateStatus unreachableEnv singleItemDb "id-0" "cancelled").db = singleItemDb ∧
      (singleItemDb.orders.map (fun o => o.status)) = ["pending"] := by
  decide

/-- C10 (witness): cancelling the single-item order with every call accepted
returns the cancelled order and stores the new status. -/
theorem updateStatus_cancel_witness :
    (singleItemDb.orders.filter (fun o => o.id == "id-0")).head?
        = some { pendingOrder with total_amount := 19998 } ∧
      (updateStatus (sampleEnv 50) singleItemDb "id-0" "cancelled").response
        = .ok { order := { pendingOrder with total_amount := 19998, status := "cancelled" }
                items := singleItemDb.items.filter (fun i => i.order_id == "id-0") } ∧
      (∀ o ∈ (updateStatus (sampleEnv 50) singleItemDb "id-0" "cancelled").db.orders,
        o.id = "id-0" → o.status = "cancelled") :=
  have h := (updateStatus_cancel (sampleEnv 50) singleItemDb "id-0"
    { pendingOrder with total_amount := 19998 } (by decide) (by decide) (by decide)).2
    (fun _ _ _ _ => rfl)
  ⟨by decide, h.1, h.2.1⟩

/-! ## `DELETE /:id` (C12, C13) -/

theorem restoreOnDelete_stockCalls (env : Env N) :
    ∀ (items : List (OrderItem N)) (k : Nat),
      stockCalls (restoreOnDelete env items k)
        = items.map (fun i => (i.product_id, i.quantity)) := by
  intro items
  induction items with
  | nil => intro k; rfl
  | cons item rest ih =>
    intro k
    obtain ⟨accepted, hcall⟩ := updateProductStock_fst env k item.product_id (-item.quantity)
    simp only [restoreOnDelete, hcall, stockCalls, ih, List.map_cons, neg_neg]

theorem select_none_of_unknown (db : Db N) (id : String) (h : ∀ o ∈ db.orders, o.id ≠ id) :
    (db.orders.filter (fun o => o.id == id)).head? = none := by
  have hnil : db.orders.filter (fun o => o.id == id) = [] := by
    rw [List.filter_eq_nil_iff]
    intro o ho
    simpa using h o ho
  rw [hnil]
  rfl

/-- C12: `DELETE /:id` answers 404 "Order not found" when no stored order has
the identifier, and 400 "Only pending orders can be deleted" when the order
found is not `pending`; in both cases the store is left as it was and no
effect at all is performed, so no stock call is issued. -/
theorem deleteOrder_refused (env : Env N) (db : Db N) (id : String) (hid : id ≠ "") :
    ((∀ o ∈ db.orders, o.id ≠ id) →
        (deleteOrder env db id).response = .error 404 "Order not found" ∧
        (deleteOrder env db id).db = db ∧ (deleteOrder env db id).log = []) ∧
      (∀ existing, (db.orders.filter (fun o => o.id == id)).head? = some existing →
        existing.status ≠ "pending" →
        (deleteOrder env db id).response = .error 400 "Only pending orders can be deleted" ∧
        (deleteOrder env db id).db = db ∧ (deleteOrder env db id).log = []) := by
  have hid' : (id != "") = true := by simpa using hid
  constructor
  · intro hunknown
    have hrun : deleteOrder env db id
        = { response := .error 404 "Order not found", db := db, log := [] } := by
      simp only [deleteOrder, hid', if_true, select_none_of_unknown db id hunknown]
    rw [hrun]
    exact ⟨rfl, rfl, rfl⟩
  · intro existing hex hstatus
    have hs : (existing.status != "pending") = true := by simpa using hstatus
    have hrun : deleteOrder env db id
        = { response := .error 400 "Only pending orders can be deleted", db := db
            log := [] } := by
      simp only [deleteOrder, hid', if_true, hex, hs]
    rw [hrun]
    exact ⟨rfl, rfl, rfl⟩

/-- C13: for every order found `pending`, `DELETE /:id` answers "Order deleted
successfully" whatever the product service answers to the stock calls, issues
exactly one stock call per line item of the order, in order, with that
line's product and `+quantity`, and afterwards the store holds neither an
order with that identifier nor a line item referring to it, while the rows
of the other orders are kept. -/
theorem deleteOrder_pending (env : Env N) (db : Db N) (id : String) (existing : OrderRow N)
    (hid : id ≠ "")
    (hex : (db.orders.filter (fun o => o.id == id)).head? = some existing)
    (hpending : existing.status = "pending") :
    (deleteOrder env db id).response = .message "Order deleted successfully" ∧
      stockCalls (deleteOrder env db id).log
        = (db.items.filter (fun i => i.order_id == id)).map
            (fun i => (i.product_id, i.quantity)) ∧
      (∀ o ∈ (deleteOrder env db id).db.orders, o.id ≠ id) ∧
      (∀ i ∈ (deleteOrder env db id).db.items, i.order_id ≠ id) ∧
      (∀ o ∈ db.orders, o.id ≠ id → o ∈ (deleteOrder env db id).db.orders) ∧
      (∀ i ∈ db.items, i.order_id ≠ id → i ∈ (deleteOrder env db id).db.items) := by
  have hid' : (id != "") = true := by simpa using hid
  have hs : (existing.status != "pending") = false := by simp [hpending]
  have hrun : deleteOrder env db id
      = { response := .message "Order deleted successfully", db := deleteRows db id
          log := restoreOnDelete env (db.items.filter (fun i => i.order_id == id)) 0
            ++ [Event.deleteOrder id] } := by
    simp only [deleteOrder, hid', if_true, hex, hs, Bool.false_eq_true, if_false]
  rw [hrun]
  refine ⟨rfl, ?_, ?_, ?_, ?_, ?_⟩
  · simp [stockCalls_append, restoreOnDelete_stockCalls, stockCalls]
  · intro o ho
    simpa [deleteRows] using (List.mem_filter.mp ho).2
  · intro i hi
    simpa [deleteRows] using (List.mem_filter.mp hi).2
  · intro o ho hne
    simp [deleteRows, ho, hne]
  · intro i hi hne
    simp [deleteRows, hi, hne]

/-! ## Statuses accepted by `PATCH /:id/status` (C14 to C17) -/

/-- The run of `PATCH /:id/status` for an existing order and a valid status
when the product service accepts the restoration calls it is asked for. -/
theorem updateStatus_accepted (env : Env N) (db : Db N) (id status : String)
    (existing : OrderRow N) (hid : id ≠ "") (hstatus : validStatus status = true)
    (hex : (db.orders.filter (fun o => o.id == id)).head? = some existing)
    (haccept : status = "cancelled" → existing.status ≠ "cancelled" →
      ∀ n, ∀ i ∈ db.items, i.order_id = id → env.adjust n i.product_id i.quantity = .ok) :
    updateStatus env db id status =
      { response := .ok { order := { existing with status := status }
                          items := db.items.filter (fun i => i.order_id == id) }
        db := setStatus db id status
        log := (if status = "cancelled" ∧ existing.status ≠ "cancelled" then
            (db.items.filter (fun i => i.order_id == id)).map
              (fun i => Event.patch i.product_id i.quantity true)
          else []) ++ [Event.updateStatus id status] } := by
  rw [updateStatus_of_existing env db id status existing hid hstatus hex _ rfl]
  by_cases hc : status = "cancelled" ∧ existing.status ≠ "cancelled"
  · have haccept' : ∀ n, ∀ i ∈ db.items.filter (fun i => i.order_id == id),
        env.adjust n i.product_id i.quantity = .ok := by
      intro n i hi
      obtain ⟨hmem, hparent⟩ := List.mem_filter.mp hi
      exact haccept hc.1 hc.2 n i hmem (by simpa using hparent)
    rw [if_pos ((cancelling_iff _ _).mpr hc), if_pos hc, restoreStock_accepted env _ 0 haccept']
    rfl
  · rw [if_neg (fun h => hc ((cancelling_iff _ _).mp h)), if_neg hc]
    rfl

/-- C14: for every identifier that no stored order carries and every status of
the enum, `PATCH /:id/status` answers 404 "Order not found", leaves the store
as it was and performs no effect, so no call reaches the product service. -/
theorem updateStatus_unknown (env : Env N) (db : Db N) (id status : String) (hid : id ≠ "")
    (hstatus : status ∈ ["pending", "confirmed", "processing", "shipped", "delivered",
      "cancelled"])
    (hunknown : ∀ o ∈ db.orders, o.id ≠ id) :
    (updateStatus env db id status).response = .error 404 "Order not found" ∧
      (updateStatus env db id status).db = db ∧ (updateStatus env db id status).log = [] := by
  have hid' : (id != "") = true := by simpa using hid
  have hvalid : validStatus status = true := by
    simpa [validStatus] using hstatus
  have hrun : updateStatus env db id status
      = { response := .error 404 "Order not found", db := db, log := [] } := by
    simp only [updateStatus, hid', hvalid, Bool.and_self, if_true,
      select_none_of_unknown db id hunknown]
  rw [hrun]
  exact ⟨rfl, rfl, rfl⟩

/-- C15: for every status value that is not, letter for letter, one of
`pending`, `confirmed`, `processing`, `shipped`, `delivered`, `cancelled`,
`PATCH /:id/status` is refused by the validation chain (400 with the
validator's errors), whatever the identifier: the store, and with it the
stored status of every order, is unchanged and no effect is performed, so no
call reaches the product service. -/
theorem updateStatus_invalid_status (env : Env N) (db : Db N) (id status : String)
    (hstatus : status ∉ ["pending", "confirmed", "processing", "shipped", "delivered",
      "cancelled"]) :
    (updateStatus env db id status).response = .invalid ∧
      (updateStatus env db id status).db = db ∧ (updateStatus env db id status).log = [] := by
  have hvalid : validStatus status = false := by
    simpa [validStatus] using hstatus
  have hrun : updateStatus env db id status = { response := .invalid, db := db, log := [] } := by
    simp only [updateStatus, hvalid, Bool.and_false, Bool.false_eq_true, if_false]
  rw [hrun]
  exact ⟨rfl, rfl, rfl⟩

/-- C16 (amended): `delivered` and `cancelled` are not terminal. For every
order whose stored status is `delivered` or `cancelled` and every status of
the enum, `PATCH /:id/status` answers `200` and stores that status (for
`delivered` to `cancelled`: provided the product service accepts the
restoration calls), so `cancelled` is reachable from `delivered` as well; an
order that is already `cancelled` triggers no stock call, whatever the new
status. -/
theorem updateStatus_from_terminal (env : Env N) (db : Db N) (id status : String)
    (existing : OrderRow N) (hid : id ≠ "") (hstatus : validStatus status = true)
    (hex : (db.orders.filter (fun o => o.id == id)).head? = some existing)
    (hterminal : existing.status = "delivered" ∨ existing.status = "cancelled")
    (haccept : existing.status = "delivered" → status = "cancelled" →
      ∀ n, ∀ i ∈ db.items, i.order_id = id → env.adjust n i.product_id i.quantity = .ok) :
    (updateStatus env db id status).response
        = .ok { order := { existing with status := status }
                items := db.items.filter (fun i => i.order_id == id) } ∧
      (∀ o ∈ (updateStatus env db id status).db.orders, o.id = id → o.status = status) ∧
      (existing.status = "cancelled" → stockCalls (updateStatus env db id status).log = []) := by
  have hacc : status = "cancelled" → existing.status ≠ "cancelled" →
      ∀ n, ∀ i ∈ db.items, i.order_id = id → env.adjust n i.product_id i.quantity = .ok := by
    intro hs hne
    rcases hterminal with hd | hc
    · exact haccept hd hs
    · exact absurd hc hne
  rw [updateStatus_accepted env db id status existing hid hstatus hex hacc]
  refine ⟨rfl, setStatus_status db id status, ?_⟩
  intro hc
  simp [hc, stockCalls]

/-- C17: for every order whose stored status is `pending`, `confirmed`,
`processing` or `shipped` and every status of the enum, `PATCH /:id/status`
answers `200` with the order carrying the new status and stores that status
for the order, whatever the pair of statuses (for `cancelled`: provided the
product service accepts the restoration calls, which are then issued, one per
line item). -/
theorem updateStatus_from_open (env : Env N) (db : Db N) (id status : String)
    (existing : OrderRow N) (hid : id ≠ "")
    (hstatus : status ∈ ["pending", "confirmed", "processing", "shipped", "delivered",
      "cancelled"])
    (hex : (db.orders.filter (fun o => o.id == id)).head? = some existing)
    (hopen : existing.status ∈ ["pending", "confirmed", "processing", "shipped"])
    (haccept : status = "cancelled" →
      ∀ n, ∀ i ∈ db.items, i.order_id = id → env.adjust n i.product_id i.quantity = .ok) :
    (updateStatus env db id status).response
        = .ok { order := { existing with status := status }
                items := db.items.filter (fun i => i.order_id == id) } ∧
      (∀ o ∈ (updateStatus env db id status).db.orders, o.id = id → o.status = status) ∧
      (∃ o ∈ (updateStatus env db id status).db.orders, o.id = id) ∧
      stockCalls (updateStatus env db id status).log
        = (if status = "cancelled" then
            (db.items.filter (fun i => i.order_id == id)).map
              (fun i => (i.product_id, i.quantity))
          else []) := by
  have hvalid : validStatus status = true := by
    simpa [validStatus] using hstatus
  have hnot : existing.status ≠ "cancelled" := by
    intro hc
    rw [hc] at hopen
    exact absurd hopen (by decide)
  rw [updateStatus_accepted env db id status existing hid hvalid hex (fun hs _ => haccept hs)]
  refine ⟨rfl, setStatus_status db id status, ⟨{ existing with status := status }, ?_, ?_⟩, ?_⟩
  rotate_left 2
  · by_cases hs : status = "cancelled"
    · simp [hs, hnot, stockCalls, stockCalls_append, stockCalls_map_patch]
    · simp [hs, stockCalls]
  · exact (List.mem_filter.mp
      (List.mem_of_mem_head? (select_updated_order db id status existing hex))).1
  · have hmem : existing ∈ db.orders.filter (fun o => o.id == id) := List.mem_of_mem_head? hex
    simpa using (List.mem_filter.mp hmem).2

/-! ## What a status update leaves alone (C18), refused baskets (C20) -/

/-- A `200` answer of `PATCH /:id/status` means that the order was found and
the status written. -/
theorem updateStatus_ok_inv (env : Env N) (db : Db N) (id status : String) (o : OrderView N)
    (h : (updateStatus env db id status).response = .ok o) :
    ∃ existing, (db.orders.filter (fun o => o.id == id)).head? = some existing ∧
      o = { order := { existing with status := status }
            items := db.items.filter (fun i => i.order_id == id) } ∧
      (updateStatus env db id status).db = setStatus db id status ∧
      (updateStatus env db id status).log
        = (if (status == "cancelled" && existing.status != "cancelled") = true then
            restoreStock env (db.items.filter (fun i => i.order_id == id)) 0
          else { log := [], completed := true }).log ++ [Event.updateStatus id status] ∧
      (if (status == "cancelled" && existing.status != "cancelled") = true then
            restoreStock env (db.items.filter (fun i => i.order_id == id)) 0
          else { log := [], completed := true }).completed = true := by
  by_cases hid : id = ""
  · simp [updateStatus, hid] at h
  cases hstatus : validStatus status with
  | false =>
    have hid' : (id != "") = true := by simpa using hid
    simp [updateStatus, hid', hstatus] at h
  | true =>
    cases hex : (db.orders.filter (fun o => o.id == id)).head? with
    | none =>
      have hid' : (id != "") = true := by simpa using hid
      simp [updateStatus, hid', hstatus, hex] at h
    | some existing =>
      have key : ∀ run : RestoreRun,
          run = (if (status == "cancelled" && existing.status != "cancelled") = true then
              restoreStock env (db.items.filter (fun i => i.order_id == id)) 0
            else { log := [], completed := true }) →
          o = { order := { existing with status := status }
                items := db.items.filter (fun i => i.order_id == id) } ∧
            (updateStatus env db id status).db = setStatus db id status ∧
            (updateStatus env db id status).log = run.log ++ [Event.updateStatus id status] ∧
            run.completed = true := by
        intro run hr
        have hrun := updateStatus_of_existing env db id status existing hid hstatus hex run hr
        rw [hrun] at h ⊢
        cases hcompleted : run.completed with
        | false => simp [hcompleted] at h
        | true =>
          simp only [hcompleted, if_true, Response.ok.injEq] at h
          refine ⟨h.symm, ?_, ?_, ?_⟩ <;> simp
      obtain ⟨ho, hdb, hlog, hcompleted⟩ := key _ rfl
      exact ⟨existing, rfl, ho, hdb, hlog, hcompleted⟩

theorem setStatus_frame (db : Db N) (id status : String) :
    List.Forall₂
      (fun (before after : OrderRow N) =>
        after.id = before.id ∧ after.customer_name = before.customer_name ∧
        after.customer_email = before.customer_email ∧
        after.shipping_address = before.shipping_address ∧
        after.total_amount = before.total_amount ∧
        (before.id ≠ id → after = before))
      db.orders (setStatus db id status).orders := by
  simp only [setStatus, List.forall₂_map_right_iff, List.forall₂_same]
  intro o _
  by_cases h : o.id = id <;> simp [h]

/-- C18: whenever `PATCH /:id/status` answers `200`, the table of line items
is exactly what it was, every order row keeps its identifier, customer name,
customer email, shipping address and total amount, rows of other orders are
unchanged altogether, and the order sent back is the stored one with only
its status replaced, with the line items it had before the call. -/
theorem updateStatus_frame (env : Env N) (db : Db N) (id status : String) (o : OrderView N)
    (h : (updateStatus env db id status).response = .ok o) :
    (updateStatus env db id status).db.items = db.items ∧
      List.Forall₂
        (fun (before after : OrderRow N) =>
          after.id = before.id ∧ after.customer_name = before.customer_name ∧
          after.customer_email = before.customer_email ∧
          after.shipping_address = before.shipping_address ∧
          after.total_amount = before.total_amount ∧
          (before.id ≠ id → after = before))
        db.orders (updateStatus env db id status).db.orders ∧
      o.items = db.items.filter (fun i => i.order_id == id) ∧
      ∃ existing, (db.orders.filter (fun o => o.id == id)).head? = some existing ∧
        o.order = { existing with status := status } := by
  obtain ⟨existing, hex, ho, hdb, -, -⟩ := updateStatus_ok_inv env db id status o h
  rw [hdb, ho]
  exact ⟨rfl, setStatus_frame db id status, rfl, existing, hex, rfl⟩

theorem readItems_some :
    ∀ (raw : List RawLine) (items : List BasketLine), readItems raw = some items →
      List.Forall₂ (fun (r : RawLine) (l : BasketLine) => r.quantity = .integer l.quantity)
        raw items := by
  intro raw
  induction raw with
  | nil =>
    intro items h
    simp only [readItems, Option.some.injEq] at h
    subst h
    exact List.Forall₂.nil
  | cons line rest ih =>
    intro items h
    simp only [readItems] at h
    split at h
    · rename_i quantity lines hq hrest
      simp only [Option.some.injEq] at h
      subst h
      refine List.Forall₂.cons ?_ (ih lines hrest)
      cases hl : line.quantity with
      | integer n => simpa [readQuantity, hl] using hq
      | other => simp [readQuantity, hl] at hq
    · simp at h

/-- C20: a request whose `items` list is empty, or which has a line whose
quantity is not an integer or is an integer below 1, is refused by the
validation chain of `POST /` (400 with the validator's errors) and performs
no effect at all: no read of the product service, no transaction, no insert
and no stock call; the store is as it was. -/
theorem postOrder_rejects_basket (A : NumOps N) (env : Env N) (db : Db N)
    (body : RawOrderRequest) (uuid : Nat → String)
    (hbad : body.items = [] ∨ ∃ line ∈ body.items,
      line.quantity = .other ∨ ∃ n, line.quantity = .integer n ∧ n < 1) :
    (postOrder A env db body uuid).response = .invalid ∧
      (postOrder A env db body uuid).db = db ∧ (postOrder A env db body uuid).log = [] := by
  cases hread : readItems body.items with
  | none =>
    have hrun : postOrder A env db body uuid = { response := .invalid, db := db, log := [] } := by
      simp only [postOrder, hread]
    rw [hrun]
    exact ⟨rfl, rfl, rfl⟩
  | some items =>
    have hall := readItems_some body.items items hread
    have hinvalid : validOrderRequest env
        { customer_name := body.customer_name, customer_email := body.customer_email
          shipping_address := body.shipping_address, items := items } = false := by
      rcases hbad with hempty | ⟨line, hmem, hline⟩
      · rw [hempty] at hall
        cases hall
        simp [validOrderRequest]
      · obtain ⟨l, hl, hq⟩ := forall₂_exists_right hall hmem
        rcases hline with hother | ⟨n, hn, hlt⟩
        · rw [hother] at hq
          cases hq
        · rw [hn] at hq
          simp only [QuantityValue.integer.injEq] at hq
          have hfalse : (l.product_id != "" && decide (1 ≤ l.quantity)) = false := by
            have : ¬ 1 ≤ l.quantity := by omega
            simp [this]
          have hallf : items.all (fun item => item.product_id != "" && decide (1 ≤ item.quantity))
              = false := by
            rw [List.all_eq_false]
            exact ⟨l, hl, by simp [hfalse]⟩
          simp only [validOrderRequest, hallf, Bool.and_false]
    have hrun : postOrder A env db body uuid = { response := .invalid, db := db, log := [] } := by
      simp only [postOrder, hread, placeOrder, hinvalid, Bool.false_eq_true, if_false]
    rw [hrun]
    exact ⟨rfl, rfl, rfl⟩

/-! ## The stock route of the product service (C19) -/

theorem stockOf_eq_some {products : List ProductRow} {id : String} {s : Int} :
    stockOf products id = some s ↔
      ∃ existing, (products.filter (fun p => p.id == id)).head? = some existing ∧
        existing.stock = s := by
  unfold stockOf
  cases (products.filter (fun p => p.id == id)).head? <;> simp

theorem select_updated_product (products : List ProductRow) (id : String) (v : Int)
    (existing : ProductRow)
    (hex : (products.filter (fun p => p.id == id)).head? = some existing) :
    ((setStock products id v).filter (fun p => p.id == id)).head?
      = some { existing with stock := v } := by
  have hid : (existing.id == id) = true :=
    (List.mem_filter.mp (List.mem_of_mem_head? hex)).2
  have hcomp : ((fun p : ProductRow => p.id == id) ∘
      fun p => if (p.id == id) = true then { p with stock := v } else p)
      = fun p => p.id == id := by
    funext p
    by_cases h : p.id = id <;> simp [h]
  simp only [setStock, List.filter_map, hcomp, List.head?_map, hex, Option.map_some', hid,
    if_true]

theorem stockOf_setStock_other (products : List ProductRow) (id other : String) (v : Int)
    (hne : other ≠ id) : stockOf (setStock products id v) other = stockOf products other := by
  have hcomp : ((fun p : ProductRow => p.id == other) ∘
      fun p => if (p.id == id) = true then { p with stock := v } else p)
      = fun p => p.id == other := by
    funext p
    by_cases h : p.id = id <;> simp [h]
  simp only [stockOf, setStock, List.filter_map, hcomp, List.head?_map, Option.map_map]
  cases hhead : (products.filter (fun p => p.id == other)).head? with
  | none => rfl
  | some p =>
    have hp : p.id = other := by
      simpa using (List.mem_filter.mp (List.mem_of_mem_head? hhead)).2
    have hpid : ¬ p.id = id := fun h => hne (hp.symm.trans h)
    simp [hpid]

/-- The stock route called with a number that the check accepts, on a product
that `GET /:id` reports with stock `s`. -/
theorem patchStock_of_stock (products : List ProductRow) (id : String) (d s : Int)
    (hid : id ≠ "") (hd : d.natAbs < 10 ^ 21) (hs : stockOf products id = some s) :
    patchStock products id (.number d) =
      if s + d < 0 then
        { response := .error 400 "Insufficient stock", products := products }
      else if fitsInt (s + d) = true then
        { response := .ok { id := id, stock := s + d }
          products := setStock products id (s + d) }
      else
        { response := .error 500 "Failed to update stock", products := products } := by
  obtain ⟨existing, hex, hstock⟩ := stockOf_eq_some.mp hs
  have hvalid : (id != "" && (JsValue.number d).isInt) = true := by
    simpa [JsValue.isInt, hid] using hd
  have heid : existing.id = id := by
    simpa using (List.mem_filter.mp (List.mem_of_mem_head? hex)).2
  simp only [patchStock, hvalid, if_true, hex, jsAdd, hstock, JsValue.lessThanZero,
    JsValue.columnValue, decide_eq_true_eq]
  by_cases hneg : s + d < 0
  · simp only [hneg, if_true]
  · by_cases hfit : fitsInt (s + d) = true
    · simp only [hneg, if_false, hfit, if_true,
        select_updated_product products id (s + d) existing hex, heid]
    · simp only [hneg, if_false, hfit, Bool.false_eq_true]

theorem patchStock_unknown (products : List ProductRow) (id : String) (quantity : JsValue)
    (hs : stockOf products id = none) :
    (patchStock products id quantity).response.accepted = false ∧
      (patchStock products id quantity).products = products := by
  have hnone : (products.filter (fun p => p.id == id)).head? = none := by
    unfold stockOf at hs
    cases hh : (products.filter (fun p => p.id == id)).head? with
    | none => rfl
    | some p => simp [hh] at hs
  by_cases hvalid : (id != "" && quantity.isInt) = true
  · simp only [patchStock, hvalid, if_true, hnone, StockResponse.accepted, and_self]
  · simp only [patchStock, hvalid, Bool.false_eq_true, if_false, StockResponse.accepted,
      and_self]

theorem patchStock_accepted {products : List ProductRow} {id : String} {d : Int}
    (h : (patchStock products id (.number d)).response.accepted = true) :
    ∃ s, stockOf products id = some s ∧ 0 ≤ s + d ∧
      (patchStock products id (.number d)).products = setStock products id (s + d) := by
  by_cases hvalid : (id != "" && (JsValue.number d).isInt) = true
  swap
  · simp [patchStock, hvalid, StockResponse.accepted] at h
  have hid : id ≠ "" := by
    intro hempty
    simp [hempty] at hvalid
  have hd : d.natAbs < 10 ^ 21 := by
    simpa [JsValue.isInt, hid] using hvalid
  cases hs : stockOf products id with
  | none =>
    rw [(patchStock_unknown products id (.number d) hs).1] at h
    exact absurd h (by decide)
  | some s =>
    rw [patchStock_of_stock products id d s hid hd hs] at h ⊢
    by_cases hneg : s + d < 0
    · simp [hneg, StockResponse.accepted] at h
    · by_cases hfit : fitsInt (s + d) = true
      · exact ⟨s, rfl, not_lt.mp hneg, by simp [hneg, hfit]⟩
      · simp [hneg, hfit, StockResponse.accepted] at h

theorem stockOf_setStock_same (products : List ProductRow) (id : String) (v s : Int)
    (hs : stockOf products id = some s) : stockOf (setStock products id v) id = some v := by
  obtain ⟨existing, hex, -⟩ := stockOf_eq_some.mp hs
  simp [stockOf, select_updated_product products id v existing hex]

theorem stockOf_applyCalls :
    ∀ (calls : List (String × Int)) (products : List ProductRow) (pid : String),
      allAccepted products calls = true →
      stockOf (applyCalls products calls) pid
        = (stockOf products pid).map (fun s => s + netQuantity pid calls) := by
  intro calls
  induction calls with
  | nil =>
    intro products pid _
    simp [applyCalls, netQuantity]
  | cons call rest ih =>
    intro products pid h
    simp only [allAccepted, Bool.and_eq_true] at h
    obtain ⟨s, hs, -, hproducts⟩ := patchStock_accepted h.1
    simp only [applyCalls, netQuantity]
    rw [ih _ pid h.2, hproducts]
    by_cases hpid : call.1 = pid
    · subst hpid
      rw [stockOf_setStock_same products call.1 _ s hs, hs]
      simp [add_assoc]
    · rw [stockOf_setStock_other products call.1 pid _ (fun h => hpid h.symm)]
      simp [hpid]

theorem columnValue_nonneg {x : JsValue} {v : Int} (hneg : x.lessThanZero = false)
    (hv : x.columnValue = some v) : 0 ≤ v := by
  cases x with
  | number n =>
    simp only [JsValue.lessThanZero, decide_eq_false_iff_not, not_lt] at hneg
    simp only [JsValue.columnValue] at hv
    split at hv
    · exact (Option.some.inj hv) ▸ hneg
    · exact absurd hv (by simp)
  | text t =>
    simp only [JsValue.lessThanZero, JsValue.columnValue] at hneg hv
    cases hread : readInt t with
    | none => simp [hread] at hv
    | some n =>
      simp only [hread, decide_eq_false_iff_not, not_lt] at hneg hv
      split at hv
      · exact (Option.some.inj hv) ▸ hneg
      · exact absurd hv (by simp)

/-- The table after a call of the stock route, whatever the body: as it was,
or with the stock of the product set to a value that is not negative. -/
theorem patchStock_products (products : List ProductRow) (id : String) (quantity : JsValue) :
    (patchStock products id quantity).products = products ∨
      ∃ v, 0 ≤ v ∧ (patchStock products id quantity).products = setStock products id v := by
  by_cases hvalid : (id != "" && quantity.isInt) = true
  swap
  · left
    simp only [patchStock, hvalid, Bool.false_eq_true, if_false]
  cases hex : (products.filter (fun p => p.id == id)).head? with
  | none =>
    left
    simp only [patchStock, hvalid, if_true, hex]
  | some existing =>
    cases hneg : (jsAdd existing.stock quantity).lessThanZero with
    | true =>
      left
      simp only [patchStock, hvalid, if_true, hex, hneg]
    | false =>
      cases hcol : (jsAdd existing.stock quantity).columnValue with
      | none =>
        left
        simp only [patchStock, hvalid, if_true, hex, hneg, Bool.false_eq_true, if_false, hcol]
      | some stored =>
        right
        refine ⟨stored, columnValue_nonneg hneg hcol, ?_⟩
        simp only [patchStock, hvalid, if_true, hex, hneg, Bool.false_eq_true, if_false, hcol,
          select_updated_product products id stored existing hex]

theorem patchStock_nonneg (products : List ProductRow) (id : String) (quantity : JsValue)
    (h : ∀ r ∈ products, 0 ≤ r.stock) :
    ∀ r ∈ (patchStock products id quantity).products, 0 ≤ r.stock := by
  rcases patchStock_products products id quantity with hsame | ⟨v, hv, hset⟩
  · rw [hsame]
    exact h
  · rw [hset]
    intro r hr
    simp only [setStock, List.mem_map] at hr
    obtain ⟨p, hp, rfl⟩ := hr
    by_cases hpid : (p.id == id) = true
    · simpa [hpid] using hv
    · simpa [hpid] using h p hp

theorem serveRequests_nonneg :
    ∀ (requests : List (String × JsValue)) (products : List ProductRow),
      (∀ r ∈ products, 0 ≤ r.stock) → ∀ r ∈ serveRequests products requests, 0 ≤ r.stock := by
  intro requests
  induction requests with
  | nil => intro products h; simpa [serveRequests] using h
  | cons request rest ih =>
    intro products h
    simp only [serveRequests]
    exact ih _ (patchStock_nonneg products request.1 request.2 h)

/-- C19 (amended): the stock route on a product that exists with stock `s`,
called with the integer `d` sent as a JSON number that the check accepts:
when `s + d < 0` it answers 400 "Insufficient stock" and leaves the table as
it was; when `0 ≤ s + d` and `s + d` does not exceed 2147483647, the largest
value of column `stock INT`, it answers `200` with the product at stock
`s + d`, which is then the stock reported for that product, the other
products keeping theirs. Hence, from a table whose stocks are all
non-negative, every sequence of requests to the route, whatever their
bodies, leaves all stocks non-negative. -/
theorem patchStock_adjusts (products : List ProductRow) (id : String) (d s : Int)
    (hid : id ≠ "") (hd : d.natAbs < 10 ^ 21) (hs : stockOf products id = some s) :
    (s + d < 0 →
        (patchStock products id (.number d)).response = .error 400 "Insufficient stock" ∧
        (patchStock products id (.number d)).products = products) ∧
      (0 ≤ s + d → s + d ≤ 2147483647 →
        (patchStock products id (.number d)).response = .ok { id := id, stock := s + d } ∧
        stockOf (patchStock products id (.number d)).products id = some (s + d) ∧
        ∀ other, other ≠ id →
          stockOf (patchStock products id (.number d)).products other
            = stockOf products other) ∧
      (∀ (table : List ProductRow) (requests : List (String × JsValue)),
        (∀ r ∈ table, 0 ≤ r.stock) → ∀ r ∈ serveRequests table requests, 0 ≤ r.stock) := by
  rw [patchStock_of_stock products id d s hid hd hs]
  refine ⟨?_, ?_, fun table requests h => serveRequests_nonneg requests table h⟩
  · intro hneg
    rw [if_pos hneg]
    exact ⟨rfl, rfl⟩
  · intro hle hmax
    have hfit : fitsInt (s + d) = true := by
      simp only [fitsInt, Bool.and_eq_true, decide_eq_true_eq]
      omega
    rw [if_neg (not_lt.mpr hle), if_pos hfit]
    exact ⟨rfl, stockOf_setStock_same products id _ s hs,
      fun other hne => stockOf_setStock_other products id other _ hne⟩

/-! ## Placing, then cancelling (C11) -/

theorem restoreStock_of_completed (env : Env N) :
    ∀ (items : List (OrderItem N)) (k : Nat), (restoreStock env items k).completed = true →
      stockCalls (restoreStock env items k).log
        = items.map (fun i => (i.product_id, i.quantity)) := by
  intro items
  induction items with
  | nil => intro k _; rfl
  | cons item rest ih =>
    intro k h
    simp only [restoreStock] at h ⊢
    split at h
    · simp only [stockCalls, List.map_cons, ih _ h]
    · simp at h
    · simp at h

/-- What a `201` answer of `POST /` leaves behind: the order sent back, the
committed rows and the stock calls made. -/
theorem placeOrder_created_run (A : NumOps N) (env : Env N) (db : Db N) (req : OrderRequest)
    (uuid : Nat → String) (o : OrderView N)
    (h : (placeOrder A env db req uuid).response = .created o) :
    o.order.id = uuid 0 ∧ o.order.status = "pending" ∧
      (∀ i ∈ o.items, i.order_id = uuid 0) ∧
      (∀ r ∈ db.orders, r.id ≠ uuid 0) ∧
      (placeOrder A env db req uuid).db
        = { orders := db.orders ++ [o.order], items := db.items ++ o.items.map (storeItem A) } ∧
      stockCalls (placeOrder A env db req uuid).log
        = o.items.map (fun i => (i.product_id, -i.quantity)) := by
  obtain ⟨hvalid, t, its, hout, hall, hlog, hacc, hrun⟩ :=
    placeOrder_created_inv A env db req uuid o h
  have hcommitted := placeOrder_committed A env db req uuid t its hvalid hout hacc hrun
  rw [hcommitted] at h
  simp only [Response.created.injEq] at h
  subst h
  rw [hcommitted, hlog]
  refine ⟨rfl, rfl, ?_, ?_, ?_, ?_⟩
  · intro i hi
    obtain ⟨l, -, hsnap⟩ := forall₂_exists_right hall.flip hi
    exact hsnap.1
  · intro r hr heq
    simp only [insertRejected, Bool.or_eq_false_iff] at hacc
    have := List.any_eq_false.mp hacc.2 r hr
    simp [heq] at this
  · simp only [(insertItems_of_completed A env db uuid its 0 hrun).1]
  · simp only [stockCalls, List.cons_append, stockCalls_append, stockCalls_map_get,
      List.nil_append, (insertItems_of_completed A env db uuid its 0 hrun).2, List.append_nil]

theorem netQuantity_append (id : String) (c₁ c₂ : List (String × Int)) :
    netQuantity id (c₁ ++ c₂) = netQuantity id c₁ + netQuantity id c₂ := by
  induction c₁ with
  | nil => simp [netQuantity]
  | cons c rest ih => simp [netQuantity, ih, add_assoc]

theorem netQuantity_round_trip (id : String) (items : List (OrderItem N)) :
    netQuantity id (items.map (fun i => (i.product_id, -i.quantity)))
      + netQuantity id (items.map (fun i => (i.product_id, i.quantity))) = 0 := by
  induction items with
  | nil => simp [netQuantity]
  | cons i rest ih =>
    simp only [List.map_cons, netQuantity]
    by_cases h : i.product_id = id
    · simp only [h, if_true]
      omega
    · simp only [h, if_false]
      omega

/-- C11: for every basket that `POST /` places (answer `201`) and whose order
`PATCH /:id/status` then cancels (answer `200`), the restoration calls are
the decrement calls of the placement with the sign of the quantity reversed,
line by line; and when the stock route of the product service answers `200`
to every one of these calls, decrements first and restorations after, the
stock it reports for every product is afterwards what it was before the
order was placed. The store is assumed to satisfy its foreign key: every
line item refers to a stored order. -/
theorem place_then_cancel_round_trip (A : NumOps N) (env₁ env₂ : Env N) (db : Db N)
    (req : OrderRequest) (uuid : Nat → String) (o o' : OrderView N)
    (products : List ProductRow)
    (hfk : ∀ i ∈ db.items, ∃ r ∈ db.orders, r.id = i.order_id)
    (hplaced : (placeOrder A env₁ db req uuid).response = .created o)
    (hcancelled : (updateStatus env₂ (placeOrder A env₁ db req uuid).db o.order.id
      "cancelled").response = .ok o')
    (haccepted : allAccepted products
      (stockCalls (placeOrder A env₁ db req uuid).log ++
        stockCalls (updateStatus env₂ (placeOrder A env₁ db req uuid).db o.order.id
          "cancelled").log) = true) :
    stockCalls (updateStatus env₂ (placeOrder A env₁ db req uuid).db o.order.id
        "cancelled").log
      = (stockCalls (placeOrder A env₁ db req uuid).log).map (fun c => (c.1, -c.2)) ∧
      ∀ pid, stockOf (applyCalls products
          (stockCalls (placeOrder A env₁ db req uuid).log ++
            stockCalls (updateStatus env₂ (placeOrder A env₁ db req uuid).db o.order.id
              "cancelled").log)) pid
        = stockOf products pid := by
  obtain ⟨hoid, hpending, hparent, hfresh, hdb, hcalls⟩ :=
    placeOrder_created_run A env₁ db req uuid o hplaced
  -- the line items that the cancellation finds for the order
  have hitems : (placeOrder A env₁ db req uuid).db.items.filter
      (fun i => i.order_id == o.order.id) = o.items.map (storeItem A) := by
    rw [hdb, hoid]
    have hold : db.items.filter (fun i => i.order_id == uuid 0) = [] := by
      rw [List.filter_eq_nil_iff]
      intro i hi hparent'
      obtain ⟨r, hr, hrid⟩ := hfk i hi
      exact hfresh r hr (hrid.trans (by simpa using hparent'))
    have hnew : (o.items.map (storeItem A)).filter (fun i => i.order_id == uuid 0)
        = o.items.map (storeItem A) := by
      rw [List.filter_eq_self]
      intro i hi
      obtain ⟨j, hj, rfl⟩ := List.mem_map.mp hi
      simpa [storeItem] using hparent j hj
    simp only [List.filter_append, hold, hnew, List.nil_append]
  obtain ⟨existing, hex, -, -, hlog, hcompleted⟩ :=
    updateStatus_ok_inv env₂ _ o.order.id "cancelled" o' hcancelled
  have hexisting : existing = o.order := by
    have hsel : ((placeOrder A env₁ db req uuid).db.orders.filter
        (fun r => r.id == o.order.id)).head? = some o.order := by
      rw [hdb, hoid]
      have hold : db.orders.filter (fun r => r.id == uuid 0) = [] := by
        rw [List.filter_eq_nil_iff]
        intro r hr
        simpa using hfresh r hr
      simp [List.filter_append, hold, List.filter_cons, hoid]
    rw [hsel] at hex
    exact (Option.some.inj hex).symm
  have hc : ("cancelled" == "cancelled" && existing.status != "cancelled") = true := by
    rw [hexisting, hpending]
    decide
  rw [if_pos hc] at hlog hcompleted
  have hcalls₂ : stockCalls (updateStatus env₂ (placeOrder A env₁ db req uuid).db o.order.id
      "cancelled").log = o.items.map (fun i => (i.product_id, i.quantity)) := by
    rw [hlog, stockCalls_append, restoreStock_of_completed env₂ _ 0 hcompleted, hitems]
    simp [stockCalls, storeItem]
  constructor
  · rw [hcalls₂, hcalls]
    simp
  · intro pid
    rw [stockOf_applyCalls _ products pid haccepted, hcalls, hcalls₂, netQuantity_append,
      netQuantity_round_trip]
    cases stockOf products pid <;> simp

/-! ## Concrete runs, continued -/

/-- C11 (witness): placing `[prod-001 × 2, prod-002 × 1]` and cancelling the
order sends `-2`, `-1`, `+2`, `+1`; a product service holding 50 and 10 units
accepts them all and reports 50 and 10 again afterwards. -/
theorem place_then_cancel_round_trip_witness :
    (placeOrder centOps (sampleEnv 50) emptyDb
        (sampleRequest [⟨"prod-001", 2⟩, ⟨"prod-002", 1⟩]) sampleUuid).response
      = .created { order := pendingOrder, items := [laptopItem, mouseItem] } ∧
      allAccepted sampleProducts
        (stockCalls (placeOrder centOps (sampleEnv 50) emptyDb
            (sampleRequest [⟨"prod-001", 2⟩, ⟨"prod-002", 1⟩]) sampleUuid).log ++
          stockCalls (updateStatus (sampleEnv 50) (placeOrder centOps (sampleEnv 50) emptyDb
            (sampleRequest [⟨"prod-001", 2⟩, ⟨"prod-002", 1⟩]) sampleUuid).db
            pendingOrder.id "cancelled").log) = true ∧
      stockCalls (placeOrder centOps (sampleEnv 50) emptyDb
          (sampleRequest [⟨"prod-001", 2⟩, ⟨"prod-002", 1⟩]) sampleUuid).log
        = [("prod-001", -2), ("prod-002", -1)] ∧
      stockCalls (updateStatus (sampleEnv 50) (placeOrder centOps (sampleEnv 50) emptyDb
          (sampleRequest [⟨"prod-001", 2⟩, ⟨"prod-002", 1⟩]) sampleUuid).db
          pendingOrder.id "cancelled").log
        = (stockCalls (placeOrder centOps (sampleEnv 50) emptyDb
            (sampleRequest [⟨"prod-001", 2⟩, ⟨"prod-002", 1⟩]) sampleUuid).log).map
            (fun c => (c.1, -c.2)) ∧
      stockOf (applyCalls sampleProducts
          (stockCalls (placeOrder centOps (sampleEnv 50) emptyDb
              (sampleRequest [⟨"prod-001", 2⟩, ⟨"prod-002", 1⟩]) sampleUuid).log ++
            stockCalls (updateStatus (sampleEnv 50) (placeOrder centOps (sampleEnv 50) emptyDb
              (sampleRequest [⟨"prod-001", 2⟩, ⟨"prod-002", 1⟩]) sampleUuid).db
              pendingOrder.id "cancelled").log)) "prod-001"
        = stockOf sampleProducts "prod-001" :=
  have h := place_then_cancel_round_trip centOps (sampleEnv 50) (sampleEnv 50) emptyDb
    (sampleRequest [⟨"prod-001", 2⟩, ⟨"prod-002", 1⟩]) sampleUuid
    { order := pendingOrder, items := [laptopItem, mouseItem] }
    { order := { pendingOrder with status := "cancelled" }, items := [laptopItem, mouseItem] }
    sampleProducts (by decide) (by decide) (by decide) (by decide)
  ⟨by decide, by decide, by decide, h.1, h.2 "prod-001"⟩

/-- C12 (witness): deleting the unknown `id-9` is answered 404, deleting the
confirmed order `id-0` is answered 400; the store keeps its rows and no
effect is performed. -/
theorem deleteOrder_refused_witness :
    ((deleteOrder (sampleEnv 50) placedDb "id-9").response = .error 404 "Order not found" ∧
        (deleteOrder (sampleEnv 50) placedDb "id-9").db = placedDb ∧
        (deleteOrder (sampleEnv 50) placedDb "id-9").log = []) ∧
      ((deleteOrder (sampleEnv 50) (placedDbWithStatus "confirmed") "id-0").response
          = .error 400 "Only pending orders can be deleted" ∧
        (deleteOrder (sampleEnv 50) (placedDbWithStatus "confirmed") "id-0").db
          = placedDbWithStatus "confirmed" ∧
        (deleteOrder (sampleEnv 50) (placedDbWithStatus "confirmed") "id-0").log = []) :=
  ⟨(deleteOrder_refused (sampleEnv 50) placedDb "id-9" (by decide)).1 (by decide),
    (deleteOrder_refused (sampleEnv 50) (placedDbWithStatus "confirmed") "id-0" (by decide)).2
      { pendingOrder with status := "confirmed" } (by decide) (by decide)⟩

/-- C13 (witness): deleting the pending order `id-0` while the product
service cannot be reached still deletes it, after the calls `("prod-001", 2)`
and `("prod-002", 1)` have been attempted. -/
theorem deleteOrder_pending_witness :
    (placedDb.orders.filter (fun o => o.id == "id-0")).head? = some pendingOrder ∧
      (deleteOrder unreachableEnv placedDb "id-0").response
        = .message "Order deleted successfully" ∧
      stockCalls (deleteOrder unreachableEnv placedDb "id-0").log
        = (placedDb.items.filter (fun i => i.order_id == "id-0")).map
            (fun i => (i.product_id, i.quantity)) ∧
      stockCalls (deleteOrder unreachableEnv placedDb "id-0").log
        = [("prod-001", 2), ("prod-002", 1)] ∧
      (deleteOrder unreachableEnv placedDb "id-0").db = { orders := [], items := [] } :=
  have h := deleteOrder_pending unreachableEnv placedDb "id-0" pendingOrder (by decide)
    (by decide) (by decide)
  ⟨by decide, h.1, h.2.1, by decide, by decide⟩

/-- C14 (witness): setting the unknown `id-9` to `shipped` is answered 404. -/
theorem updateStatus_unknown_witness :
    (updateStatus (sampleEnv 50) placedDb "id-9" "shipped").response
        = .error 404 "Order not found" ∧
      (updateStatus (sampleEnv 50) placedDb "id-9" "shipped").db = placedDb ∧
      (updateStatus (sampleEnv 50) placedDb "id-9" "shipped").log = [] :=
  updateStatus_unknown (sampleEnv 50) placedDb "id-9" "shipped" (by decide) (by decide)
    (by decide)

/-- C15 (witness): `Pending`, with a capital letter, is refused. -/
theorem updateStatus_invalid_status_witness :
    "Pending" ∉ ["pending", "confirmed", "processing", "shipped", "delivered", "cancelled"] ∧
      (updateStatus (sampleEnv 50) placedDb "id-0" "Pending").response = .invalid ∧
      (updateStatus (sampleEnv 50) placedDb "id-0" "Pending").db = placedDb ∧
      (updateStatus (sampleEnv 50) placedDb "id-0" "Pending").log = [] :=
  ⟨by decide,
    updateStatus_invalid_status (sampleEnv 50) placedDb "id-0" "Pending" (by decide)⟩

/-- C16 (counterexample): the delivered order `id-0` is set back to `pending`
by `PATCH /:id/status`, a cancelled one to `confirmed`, and the delivered
order can be cancelled, which sends its restoration calls. -/
theorem updateStatus_terminal_counterexample :
    ((updateStatus (sampleEnv 50) (placedDbWithStatus "delivered") "id-0" "pending").db.orders.map
        (fun o => (o.id, o.status))) = [("id-0", "pending")] ∧
      ((updateStatus (sampleEnv 50) (placedDbWithStatus "cancelled") "id-0"
        "confirmed").db.orders.map (fun o => (o.id, o.status))) = [("id-0", "confirmed")] ∧
      ((updateStatus (sampleEnv 50) (placedDbWithStatus "delivered") "id-0"
        "cancelled").db.orders.map (fun o => (o.id, o.status))) = [("id-0", "cancelled")] ∧
      stockCalls (updateStatus (sampleEnv 50) (placedDbWithStatus "delivered") "id-0"
        "cancelled").log = [("prod-001", 2), ("prod-002", 1)] := by
  decide

/-- C16 (witness): cancelling the delivered order `id-0`. -/
theorem updateStatus_from_terminal_witness :
    ((placedDbWithStatus "delivered").orders.filter (fun o => o.id == "id-0")).head?
        = some { pendingOrder with status := "delivered" } ∧
      (updateStatus (sampleEnv 50) (placedDbWithStatus "delivered") "id-0" "cancelled").response
        = .ok { order := { pendingOrder with status := "cancelled" }
                items := (placedDbWithStatus "delivered").items.filter
                  (fun i => i.order_id == "id-0") } ∧
      (∀ o ∈ (updateStatus (sampleEnv 50) (placedDbWithStatus "delivered") "id-0"
          "cancelled").db.orders, o.id = "id-0" → o.status = "cancelled") :=
  have h := updateStatus_from_terminal (sampleEnv 50) (placedDbWithStatus "delivered") "id-0"
    "cancelled" { pendingOrder with status := "delivered" } (by decide) (by decide) (by decide)
    (Or.inl rfl) (fun _ _ _ _ _ _ => rfl)
  ⟨by decide, h.1, h.2.1⟩

/-- C17 (witness): the shipped order `id-0` is set back to `confirmed`, and
the pending one straight to `delivered`. -/
theorem updateStatus_from_open_witness :
    (updateStatus (sampleEnv 50) (placedDbWithStatus "shipped") "id-0" "confirmed").response
        = .ok { order := { pendingOrder with status := "confirmed" }
                items := (placedDbWithStatus "shipped").items.filter
                  (fun i => i.order_id == "id-0") } ∧
      (∀ o ∈ (updateStatus (sampleEnv 50) placedDb "id-0" "delivered").db.orders,
        o.id = "id-0" → o.status = "delivered") :=
  ⟨(updateStatus_from_open (sampleEnv 50) (placedDbWithStatus "shipped") "id-0" "confirmed"
      { pendingOrder with status := "shipped" } (by decide) (by decide) (by decide) (by decide)
      (fun _ _ _ _ _ => rfl)).1,
    (updateStatus_from_open (sampleEnv 50) placedDb "id-0" "delivered" pendingOrder (by decide)
      (by decide) (by decide) (by decide) (fun _ _ _ _ _ => rfl)).2.1⟩

/-- C18 (witness): shipping the pending order `id-0` leaves its line items
and every column but the status as they were. -/
theorem updateStatus_frame_witness :
    (updateStatus (sampleEnv 50) placedDb "id-0" "shipped").response
        = .ok { order := { pendingOrder with status := "shipped" }
                items := [laptopItem, mouseItem] } ∧
      (updateStatus (sampleEnv 50) placedDb "id-0" "shipped").db.items = placedDb.items ∧
      (updateStatus (sampleEnv 50) placedDb "id-0" "shipped").db.orders
        = [{ pendingOrder with status := "shipped" }] :=
  have h := updateStatus_frame (sampleEnv 50) placedDb "id-0" "shipped"
    { order := { pendingOrder with status := "shipped" }, items := [laptopItem, mouseItem] }
    (by decide)
  ⟨by decide, h.1, by decide⟩

/-- C19 (counterexample): `prod-001` has 50 units. The integer `2147483647`,
sent as a JSON number, gives a sum that is not negative, yet the stock is
not set to it: column `stock INT` cannot hold 2147483697, the answer is 500
and the stock stays 50. The integer `5` sent as the JSON string `"5"` passes
`isInt()` and sets the stock to 505, not to 55. -/
theorem patchStock_adjusts_counterexample :
    stockOf sampleProducts "prod-001" = some 50 ∧
      (0 : Int) ≤ 50 + 2147483647 ∧
      (patchStock sampleProducts "prod-001" (.number 2147483647)).response
        = .error 500 "Failed to update stock" ∧
      stockOf (patchStock sampleProducts "prod-001" (.number 2147483647)).products "prod-001"
        = some 50 ∧
      stockOf (patchStock sampleProducts "prod-001" (.number 2147483647)).products "prod-001"
        ≠ some (50 + 2147483647) ∧
      (JsValue.text "5").isInt = true ∧
      (patchStock sampleProducts "prod-001" (.text "5")).response
        = .ok { id := "prod-001", stock := 505 } ∧
      stockOf (patchStock sampleProducts "prod-001" (.text "5")).products "prod-001"
        = some 505 := by
  decide

/-- C19 (witness): with 50 units of `prod-001`, the number `-51` is refused
and the number `-2` leaves 48. -/
theorem patchStock_adjusts_witness :
    stockOf sampleProducts "prod-001" = some 50 ∧
      ((patchStock sampleProducts "prod-001" (.number (-51))).response
          = .error 400 "Insufficient stock" ∧
        (patchStock sampleProducts "prod-001" (.number (-51))).products = sampleProducts) ∧
      ((patchStock sampleProducts "prod-001" (.number (-2))).response
          = .ok { id := "prod-001", stock := 50 + -2 } ∧
        stockOf (patchStock sampleProducts "prod-001" (.number (-2))).products "prod-001"
          = some (50 + -2) ∧
        ∀ other, other ≠ "prod-001" →
          stockOf (patchStock sampleProducts "prod-001" (.number (-2))).products other
            = stockOf sampleProducts other) :=
  ⟨by decide,
    (patchStock_adjusts sampleProducts "prod-001" (-51) 50 (by decide) (by decide)
      (by decide)).1 (by decide),
    (patchStock_adjusts sampleProducts "prod-001" (-2) 50 (by decide) (by decide)
      (by decide)).2.1 (by decide) (by decide)⟩

/-- C20 (witness): a body whose only line has the quantity `2.5`, and a body
whose only line has the quantity `0`, are refused without any effect. -/
theorem postOrder_rejects_basket_witness :
    ((postOrder centOps (sampleEnv 50) emptyDb (sampleBody .other) sampleUuid).response
          = .invalid ∧
        (postOrder centOps (sampleEnv 50) emptyDb (sampleBody .other) sampleUuid).db = emptyDb ∧
        (postOrder centOps (sampleEnv 50) emptyDb (sampleBody .other) sampleUuid).log = []) ∧
      ((postOrder centOps (sampleEnv 50) emptyDb (sampleBody (.integer 0)) sampleUuid).response
          = .invalid ∧
        (postOrder centOps (sampleEnv 50) emptyDb (sampleBody (.integer 0)) sampleUuid).db
          = emptyDb ∧
        (postOrder centOps (sampleEnv 50) emptyDb (sampleBody (.integer 0)) sampleUuid).log
          = []) :=
  ⟨postOrder_rejects_basket centOps (sampleEnv 50) emptyDb (sampleBody .other) sampleUuid
      (Or.inr ⟨⟨"prod-001", .other⟩, by decide, Or.inl rfl⟩),
    postOrder_rejects_basket centOps (sampleEnv 50) emptyDb (sampleBody (.integer 0)) sampleUuid
      (Or.inr ⟨⟨"prod-001", .integer 0⟩, by decide, Or.inr ⟨0, rfl, by decide⟩⟩)⟩

/-! ## First failing line, unreachable service, single attempts (C22, C23, C24) -/

theorem checkItems_stops (A : NumOps N) (env : Env N) (orderId : String) (uuid : Nat → String)
    (line : BasketLine) (post : List BasketLine) (resp : Response N)
    (hfail : (getProductDetails env line.product_id = none ∧
        resp = .error 400 ("Product not found: " ++ line.product_id)) ∨
      (∃ p, env.getItem line.product_id = .ok p ∧ p.stock < line.quantity ∧
        resp = .error 400 ("Insufficient stock for product: " ++ p.name))) :
    ∀ (pre : List BasketLine) (k : Nat) (total : N) (acc : List (OrderItem N)),
      (∀ l ∈ pre, ∃ p, env.getItem l.product_id = .ok p ∧ l.quantity ≤ p.stock) →
      checkItems A env orderId uuid (pre ++ line :: post) k total acc
        = { log := pre.map (fun l => Event.get l.product_id)
              ++ [Event.get line.product_id, Event.rollback]
            outcome := .rejected resp } := by
  intro pre
  induction pre with
  | nil =>
    intro k total acc _
    rcases hfail with ⟨hnone, hresp⟩ | ⟨p, hp, hlt, hresp⟩
    · simp only [List.nil_append, List.map_nil, checkItems, hnone, hresp]
    · simp only [List.nil_append, List.map_nil, checkItems, getProductDetails_eq_some.mpr hp,
        if_pos hlt, hresp]
  | cons l pre ih =>
    intro k total acc hpre
    obtain ⟨p, hp, hle⟩ := hpre l (by simp)
    have hrest := ih (k + 1) (A.add total (A.mul p.price l.quantity))
      (acc ++ [{ id := uuid (k + 1), order_id := orderId, product_id := l.product_id
                 product_name := p.name, quantity := l.quantity, unit_price := p.price
                 total_price := A.mul p.price l.quantity }])
      (fun l' hl' => hpre l' (by simp [hl']))
    simp only [List.cons_append, checkItems, getProductDetails_eq_some.mpr hp,
      if_neg (not_lt.mpr hle), List.map_cons, List.append_eq, hrest]

theorem placeOrder_stops (A : NumOps N) (env : Env N) (db : Db N) (req : OrderRequest)
    (uuid : Nat → String) (hvalid : validOrderRequest env req = true)
    (pre post : List BasketLine) (line : BasketLine) (resp : Response N)
    (hsplit : req.items = pre ++ line :: post)
    (hpre : ∀ l ∈ pre, ∃ p, env.getItem l.product_id = .ok p ∧ l.quantity ≤ p.stock)
    (hfail : (getProductDetails env line.product_id = none ∧
        resp = .error 400 ("Product not found: " ++ line.product_id)) ∨
      (∃ p, env.getItem line.product_id = .ok p ∧ p.stock < line.quantity ∧
        resp = .error 400 ("Insufficient stock for product: " ++ p.name))) :
    placeOrder A env db req uuid =
      { response := resp, db := db
        log := Event.beginTransaction :: (pre.map (fun l => Event.get l.product_id)
          ++ [Event.get line.product_id, Event.rollback]) } := by
  have hrun := checkItems_stops A env (uuid 0) uuid line post resp hfail pre 0 A.zero [] hpre
  rw [← hsplit] at hrun
  rw [placeOrder_of_rejected A env db req uuid resp hvalid (by rw [hrun]), hrun]

theorem gatewayReads_append (l₁ l₂ : List Event) :
    gatewayReads (l₁ ++ l₂) = gatewayReads l₁ ++ gatewayReads l₂ := by
  induction l₁ with
  | nil => rfl
  | cons e l ih => cases e <;> simp [gatewayReads, ih]

theorem gatewayReads_map_get (items : List BasketLine) :
    gatewayReads (items.map (fun l => Event.get l.product_id))
      = items.map (fun l => l.product_id) := by
  induction items with
  | nil => rfl
  | cons l ls ih => simp [gatewayReads, ih]

theorem gatewayReads_insertItems (A : NumOps N) (env : Env N) (db : Db N) (uuid : Nat → String)
    (items : List (OrderItem N)) (k : Nat) :
    gatewayReads (insertItems A env db uuid items k).log = [] := by
  have hevents := insertItems_log_events A env db uuid items k
  generalize (insertItems A env db uuid items k).log = log at hevents
  induction log with
  | nil => rfl
  | cons e rest ih =>
    have hrest := ih (fun e' he' => hevents e' (by simp [he']))
    rcases hevents e (by simp) with ⟨_, _, _, rfl⟩ | ⟨_, _, _, rfl⟩ <;>
      simpa [gatewayReads] using hrest

/-- C24: `POST /` checks the basket lines in request order and stops at the
first line that fails: when the lines before a line are all known and in
stock and that line is unknown (no product comes back) or under-stocked, the
answer is the error of that line, "Product not found" with its product id or
"Insufficient stock" with the product's name, and the product service has
been read for the lines up to and including that one, in order, and for no
later line; nothing is written and no stock call is made. -/
theorem placeOrder_first_failing_line (A : NumOps N) (env : Env N) (db : Db N)
    (req : OrderRequest) (uuid : Nat → String) (hvalid : validOrderRequest env req = true)
    (pre post : List BasketLine) (line : BasketLine)
    (hsplit : req.items = pre ++ line :: post)
    (hpre : ∀ l ∈ pre, ∃ p, env.getItem l.product_id = .ok p ∧ l.quantity ≤ p.stock) :
    (getProductDetails env line.product_id = none →
        (placeOrder A env db req uuid).response
          = .error 400 ("Product not found: " ++ line.product_id)) ∧
      (∀ p, env.getItem line.product_id = .ok p → p.stock < line.quantity →
        (placeOrder A env db req uuid).response
          = .error 400 ("Insufficient stock for product: " ++ p.name)) ∧
      (getProductDetails env line.product_id = none ∨
          (∃ p, env.getItem line.product_id = .ok p ∧ p.stock < line.quantity) →
        gatewayReads (placeOrder A env db req uuid).log
            = (pre ++ [line]).map (fun l => l.product_id) ∧
          (placeOrder A env db req uuid).log
            = Event.beginTransaction :: (pre.map (fun l => Event.get l.product_id)
              ++ [Event.get line.product_id, Event.rollback]) ∧
          (placeOrder A env db req uuid).db = db) := by
  refine ⟨?_, ?_, ?_⟩
  · intro hnone
    rw [placeOrder_stops A env db req uuid hvalid pre post line _ hsplit hpre
      (Or.inl ⟨hnone, rfl⟩)]
  · intro p hp hlt
    rw [placeOrder_stops A env db req uuid hvalid pre post line _ hsplit hpre
      (Or.inr ⟨p, hp, hlt, rfl⟩)]
  · intro hfail
    have hrun : ∃ resp, placeOrder A env db req uuid =
        { response := resp, db := db
          log := Event.beginTransaction :: (pre.map (fun l => Event.get l.product_id)
            ++ [Event.get line.product_id, Event.rollback]) } := by
      rcases hfail with hnone | ⟨p, hp, hlt⟩
      · exact ⟨_, placeOrder_stops A env db req uuid hvalid pre post line _ hsplit hpre
          (Or.inl ⟨hnone, rfl⟩)⟩
      · exact ⟨_, placeOrder_stops A env db req uuid hvalid pre post line _ hsplit hpre
          (Or.inr ⟨p, hp, hlt, rfl⟩)⟩
    obtain ⟨resp, hrun⟩ := hrun
    rw [hrun]
    refine ⟨?_, rfl, rfl⟩
    simp [gatewayReads, gatewayReads_append, gatewayReads_map_get]

/-- C22 (amended): the order service does not tell an unreachable product
service from an unknown product. `getProductDetails` yields no product exactly
when the service answers "not found" or cannot be reached, and in both cases
`POST /` answers 400 "Product not found" with the product id for the first
such line (the lines before it being known and in stock), writes nothing and
makes no stock call. -/
theorem placeOrder_unreachable_as_not_found (A : NumOps N) (env : Env N) (db : Db N)
    (req : OrderRequest) (uuid : Nat → String) (hvalid : validOrderRequest env req = true)
    (pre post : List BasketLine) (line : BasketLine)
    (hsplit : req.items = pre ++ line :: post)
    (hpre : ∀ l ∈ pre, ∃ p, env.getItem l.product_id = .ok p ∧ l.quantity ≤ p.stock)
    (hdown : env.getItem line.product_id = .notFound ∨
      env.getItem line.product_id = .unreachable) :
    (∀ id, getProductDetails env id = none ↔
        (env.getItem id = .notFound ∨ env.getItem id = .unreachable)) ∧
      (placeOrder A env db req uuid).response
        = .error 400 ("Product not found: " ++ line.product_id) ∧
      (placeOrder A env db req uuid).db = db ∧
      stockCalls (placeOrder A env db req uuid).log = [] := by
  have hiff : ∀ id, getProductDetails env id = none ↔
      (env.getItem id = .notFound ∨ env.getItem id = .unreachable) := by
    intro id
    unfold getProductDetails
    cases env.getItem id <;> simp
  rw [placeOrder_stops A env db req uuid hvalid pre post line _ hsplit hpre
    (Or.inl ⟨(hiff _).mpr hdown, rfl⟩)]
  refine ⟨hiff, rfl, rfl, ?_⟩
  simp [stockCalls, stockCalls_append, stockCalls_map_get]

/-- C23 (amended): no call to the product service is retried. The result of
`updateProductStock` is `true` exactly when the one answer it receives is a
`200`, and `getProductDetails` yields a product exactly when the one answer
it receives carries it; in a run of `POST /` answered `201` the product
service has been read once per basket line, in order, and has received one
stock call per basket line, in order. -/
theorem gateway_calls_single_attempt (A : NumOps N) (env : Env N) (db : Db N)
    (req : OrderRequest) (uuid : Nat → String) (o : OrderView N)
    (h : (placeOrder A env db req uuid).response = .created o) :
    (∀ k pid q, (updateProductStock env k pid q).2 = true ↔ env.adjust k pid (-q) = .ok) ∧
      (∀ pid p, getProductDetails env pid = some p ↔ env.getItem pid = .ok p) ∧
      gatewayReads (placeOrder A env db req uuid).log
        = req.items.map (fun l => l.product_id) ∧
      stockCalls (placeOrder A env db req uuid).log
        = req.items.map (fun l => (l.product_id, -l.quantity)) := by
  obtain ⟨hvalid, t, its, hout, hall, hlog, hacc, hrun⟩ :=
    placeOrder_created_inv A env db req uuid o h
  rw [placeOrder_committed A env db req uuid t its hvalid hout hacc hrun, hlog]
  refine ⟨?_, fun pid p => getProductDetails_eq_some, ?_, ?_⟩
  · intro k pid q
    unfold updateProductStock
    cases env.adjust k pid (-q) <;> simp
  · simp [gatewayReads, gatewayReads_append, gatewayReads_map_get, gatewayReads_insertItems]
  · simp only [stockCalls, List.cons_append, stockCalls_append, stockCalls_map_get,
      List.nil_append, (insertItems_of_completed A env db uuid its 0 hrun).2, List.append_nil]
    exact snapshot_calls A env (uuid 0) hall

/-- C22 (counterexample): with the product service unreachable, the basket
`[prod-001 × 2]` is answered "Product not found: prod-001", the very answer
given when the service says that the product does not exist. -/
theorem placeOrder_unreachable_counterexample :
    downEnv.getItem "prod-001" = .unreachable ∧
      (placeOrder centOps downEnv emptyDb (sampleRequest [⟨"prod-001", 2⟩]) sampleUuid).response
        = .error 400 "Product not found: prod-001" ∧
      (sampleEnv 50).getItem "ghost" = .notFound ∧
      (placeOrder centOps (sampleEnv 50) emptyDb (sampleRequest [⟨"ghost", 2⟩])
          sampleUuid).response
        = .error 400 "Product not found: ghost" := by
  decide

/-- C22 (witness): the unreachable service, through the general statement. -/
theorem placeOrder_unreachable_as_not_found_witness :
    validOrderRequest downEnv (sampleRequest [⟨"prod-001", 2⟩]) = true ∧
      downEnv.getItem "prod-001" = .unreachable ∧
      (placeOrder centOps downEnv emptyDb (sampleRequest [⟨"prod-001", 2⟩]) sampleUuid).response
        = .error 400 ("Product not found: " ++ "prod-001") ∧
      (placeOrder centOps downEnv emptyDb (sampleRequest [⟨"prod-001", 2⟩]) sampleUuid).db
        = emptyDb :=
  have h := placeOrder_unreachable_as_not_found centOps downEnv emptyDb
    (sampleRequest [⟨"prod-001", 2⟩]) sampleUuid (by decide) [] [] ⟨"prod-001", 2⟩ rfl
    (by simp) (Or.inr rfl)
  ⟨by decide, by decide, h.2.1, h.2.2.1⟩

/-- C23 (counterexample): the first answer to a stock call is a network
failure and every later answer would be a `200`; for the basket
`[prod-001 × 2]` the stock call is sent once, its failure stands
(`updateProductStock` returns `false`) and no second attempt is made. -/
theorem gateway_calls_counterexample :
    flakyEnv.adjust 0 "prod-001" (-2) = .unreachable ∧
      flakyEnv.adjust 1 "prod-001" (-2) = .ok ∧
      (updateProductStock flakyEnv 0 "prod-001" 2).2 = false ∧
      (placeOrder centOps flakyEnv emptyDb (sampleRequest [⟨"prod-001", 2⟩]) sampleUuid).log
        = [Event.beginTransaction, Event.get "prod-001", Event.insertOrder "id-0",
            Event.insertItem "id-1" "prod-001" 2, Event.patch "prod-001" (-2) false,
            Event.commit] := by
  decide

/-- C23 (witness): in that run there is one read and one stock call. -/
theorem gateway_calls_single_attempt_witness :
    (placeOrder centOps flakyEnv emptyDb (sampleRequest [⟨"prod-001", 2⟩]) sampleUuid).response
        = .created { order := { pendingOrder with total_amount := 19998 }
                     items := [laptopItem] } ∧
      gatewayReads (placeOrder centOps flakyEnv emptyDb (sampleRequest [⟨"prod-001", 2⟩])
          sampleUuid).log
        = (sampleRequest [⟨"prod-001", 2⟩]).items.map (fun l => l.product_id) ∧
      stockCalls (placeOrder centOps flakyEnv emptyDb (sampleRequest [⟨"prod-001", 2⟩])
          sampleUuid).log
        = (sampleRequest [⟨"prod-001", 2⟩]).items.map (fun l => (l.product_id, -l.quantity)) :=
  have h := gateway_calls_single_attempt centOps flakyEnv emptyDb
    (sampleRequest [⟨"prod-001", 2⟩]) sampleUuid
    { order := { pendingOrder with total_amount := 19998 }, items := [laptopItem] } (by decide)
  ⟨by decide, h.2.2.1, h.2.2.2⟩

/-- C24 (witness): in `[prod-002 × 1, ghost × 1, prod-001 × 99]` the first
failing line is `ghost`: the answer is its error and `prod-001` is never
read. -/
theorem placeOrder_first_failing_line_witness :
    validOrderRequest (sampleEnv 50)
        (sampleRequest [⟨"prod-002", 1⟩, ⟨"ghost", 1⟩, ⟨"prod-001", 99⟩]) = true ∧
      getProductDetails (sampleEnv 50) "ghost" = none ∧
      (placeOrder centOps (sampleEnv 50) emptyDb
          (sampleRequest [⟨"prod-002", 1⟩, ⟨"ghost", 1⟩, ⟨"prod-001", 99⟩]) sampleUuid).response
        = .error 400 ("Product not found: " ++ "ghost") ∧
      gatewayReads (placeOrder centOps (sampleEnv 50) emptyDb
          (sampleRequest [⟨"prod-002", 1⟩, ⟨"ghost", 1⟩, ⟨"prod-001", 99⟩]) sampleUuid).log
        = ([⟨"prod-002", 1⟩, ⟨"ghost", 1⟩] : List BasketLine).map
            (fun (l : BasketLine) => l.product_id) :=
  have h := placeOrder_first_failing_line centOps (sampleEnv 50) emptyDb
    (sampleRequest [⟨"prod-002", 1⟩, ⟨"ghost", 1⟩, ⟨"prod-001", 99⟩]) sampleUuid (by decide)
    [⟨"prod-002", 1⟩] [⟨"prod-001", 99⟩] ⟨"ghost", 1⟩ rfl
    (fun l hl => by
      simp only [List.mem_singleton] at hl
      subst hl
      exact ⟨⟨"Mouse", 500, 10⟩, by decide, by decide⟩)
  ⟨by decide, by decide, h.1 (by decide), (h.2.2 (Or.inl (by decide))).1⟩

/-! ## Blank names, repeated restoration, one item on two lines (C21, C25, C26) -/

/-- C21 (code at the failing input): a request whose customer name and
shipping address consist of three blanks passes the validation chain of
`POST /` (`notEmpty` runs before `trim`, and the address is not trimmed at
all); the order is created and stored with the empty customer name and the
blank address. -/
theorem placeOrder_blank_customer :
    blankRequest.customer_name = "   " ∧ blankRequest.shipping_address = "   " ∧
      trimmingEnv.trim "   " = "" ∧
      validOrderRequest trimmingEnv blankRequest = true ∧
      (placeOrder centOps trimmingEnv emptyDb blankRequest sampleUuid).response
        = .created { order := { pendingOrder with customer_name := "", shipping_address := "   "
                                                  total_amount := 19998 }
                     items := [laptopItem] } ∧
      (placeOrder centOps trimmingEnv emptyDb blankRequest sampleUuid).db.orders.map
          (fun o => (o.customer_name, o.shipping_address)) = [("", "   ")] := by
  decide

/-- C25 (code at the failing input): the pending order `id-0` has one line
item, two laptops. Cancelling it, setting it back to `pending` and cancelling
it again sends the restoration call `("prod-001", 2)` twice, four units for a
line of two; so does cancelling it, setting it back to `pending` and deleting
it. -/
theorem restoration_repeated :
    singleItemDb.items = [laptopItem] ∧ laptopItem.quantity = 2 ∧
      lifecycleStockCalls (sampleEnv 50) "id-0" singleItemDb
          [.status "cancelled", .status "pending", .status "cancelled"]
        = [("prod-001", 2), ("prod-001", 2)] ∧
      netQuantity "prod-001" (lifecycleStockCalls (sampleEnv 50) "id-0" singleItemDb
          [.status "cancelled", .status "pending", .status "cancelled"]) = 4 ∧
      lifecycleStockCalls (sampleEnv 50) "id-0" singleItemDb
          [.status "cancelled", .status "pending", .delete]
        = [("prod-001", 2), ("prod-001", 2)] ∧
      ¬ ∀ calls : List LifecycleCall,
        netQuantity "prod-001" (lifecycleStockCalls (sampleEnv 50) "id-0" singleItemDb calls)
          ≤ laptopItem.quantity := by
  refine ⟨by decide, by decide, by decide, by decide, by decide, fun h => ?_⟩
  exact absurd (h [.status "cancelled", .status "pending", .status "cancelled"]) (by decide)

/-- C26: there is a basket with the same product on two lines, each line
within the stock the product service reports and the two together above it
(`prod-001` twice for 30 units with 50 in stock), that `POST /` answers with
`201`: both lines are in the order sent back and in the committed rows, and a
decrement call has been issued for each of them. -/
theorem placeOrder_same_item_twice :
    ∃ (stock : Int) (first second : BasketLine) (o : OrderView Int),
      first.product_id = second.product_id ∧
      (∃ p, (sampleEnv stock).getItem first.product_id = .ok p ∧ p.stock = stock) ∧
      first.quantity ≤ stock ∧ second.quantity ≤ stock ∧
      stock < first.quantity + second.quantity ∧
      (placeOrder centOps (sampleEnv stock) emptyDb (sampleRequest [first, second])
          sampleUuid).response = .created o ∧
      o.items.map (fun i => (i.product_id, i.quantity))
        = [(first.product_id, first.quantity), (second.product_id, second.quantity)] ∧
      (placeOrder centOps (sampleEnv stock) emptyDb (sampleRequest [first, second])
          sampleUuid).db.items.map (fun i => (i.order_id, i.product_id, i.quantity))
        = [(o.order.id, first.product_id, first.quantity),
            (o.order.id, second.product_id, second.quantity)] ∧
      (placeOrder centOps (sampleEnv stock) emptyDb (sampleRequest [first, second])
          sampleUuid).db.orders = [o.order] ∧
      stockCalls (placeOrder centOps (sampleEnv stock) emptyDb (sampleRequest [first, second])
          sampleUuid).log
        = [(first.product_id, -first.quantity), (second.product_id, -second.quantity)] :=
  ⟨50, ⟨"prod-001", 30⟩, ⟨"prod-001", 30⟩,
    { order := { pendingOrder with total_amount := 599940 }
      items := [{ laptopItem with quantity := 30, total_price := 299970 },
                { laptopItem with id := "id-2", quantity := 30, total_price := 299970 }] },
    by decide, ⟨⟨"Laptop", 9999, 50⟩, by decide, by decide⟩, by decide, by decide, by decide,
    by decide, by decide, by decide, by decide, by decide⟩

/-! ## Frontend cart (C27) -/

theorem map_id_of_update (cart : List CartItem) (f : CartItem → CartItem)
    (hf : ∀ item, (f item).id = item.id) :
    (cart.map f).map (fun item => item.id) = cart.map (fun item => item.id) := by
  simp [List.map_map, Function.comp, hf]

theorem addToCart_ok (cart : List CartItem) (product : CartProduct)
    (hnodup : (cart.map (fun item => item.id)).Nodup) (hq : ∀ item ∈ cart, 1 ≤ item.quantity) :
    ((addToCart cart product).map (fun item => item.id)).Nodup ∧
      ∀ item ∈ addToCart cart product, 1 ≤ item.quantity := by
  unfold addToCart
  cases hfind : cart.find? (fun item => item.id == product.id) with
  | some existing =>
    simp only
    constructor
    · rw [map_id_of_update]
      · exact hnodup
      · intro item
        by_cases h : (item.id == product.id) = true <;> simp [h]
    · intro item hitem
      obtain ⟨before, hbefore, rfl⟩ := List.mem_map.mp hitem
      have := hq before hbefore
      by_cases h : (before.id == product.id) = true
      · simp only [h, if_true]
        omega
      · simpa [h] using this
  | none =>
    simp only
    have hfresh : ∀ item ∈ cart, item.id ≠ product.id := by
      intro item hitem
      have := List.find?_eq_none.mp hfind item hitem
      simpa using this
    constructor
    · rw [List.map_append, List.nodup_append]
      refine ⟨hnodup, by simp, ?_⟩
      intro a ha hb
      simp only [List.map_cons, List.map_nil, List.mem_singleton] at hb
      obtain ⟨item, hitem, rfl⟩ := List.mem_map.mp ha
      exact hfresh item hitem hb
    · intro item hitem
      rcases List.mem_append.mp hitem with h | h
      · exact hq item h
      · simp only [List.mem_singleton] at h
        subst h
        exact le_refl (1 : Int)

theorem removeFromCart_ok (cart : List CartItem) (productId : String)
    (hnodup : (cart.map (fun item => item.id)).Nodup) (hq : ∀ item ∈ cart, 1 ≤ item.quantity) :
    ((removeFromCart cart productId).map (fun item => item.id)).Nodup ∧
      ∀ item ∈ removeFromCart cart productId, 1 ≤ item.quantity := by
  unfold removeFromCart
  constructor
  · exact hnodup.sublist ((List.filter_sublist cart).map _)
  · intro item hitem
    exact hq item (List.mem_filter.mp hitem).1

theorem updateQuantity_ok (cart : List CartItem) (productId : String) (quantity : Int)
    (hnodup : (cart.map (fun item => item.id)).Nodup) (hq : ∀ item ∈ cart, 1 ≤ item.quantity) :
    ((updateQuantity cart productId quantity).map (fun item => item.id)).Nodup ∧
      ∀ item ∈ updateQuantity cart productId quantity, 1 ≤ item.quantity := by
  unfold updateQuantity
  by_cases hlt : quantity < 1
  · rw [if_pos hlt]
    exact removeFromCart_ok cart productId hnodup hq
  · rw [if_neg hlt]
    constructor
    · rw [map_id_of_update]
      · exact hnodup
      · intro item
        by_cases h : (item.id == productId) = true <;> simp [h]
    · intro item hitem
      obtain ⟨before, hbefore, rfl⟩ := List.mem_map.mp hitem
      have := hq before hbefore
      by_cases h : (before.id == productId) = true
      · simp only [h, if_true]
        omega
      · simpa [h] using this

theorem foldl_applyAction_ok (actions : List CartAction) :
    ∀ cart : List CartItem, (cart.map (fun item => item.id)).Nodup →
      (∀ item ∈ cart, 1 ≤ item.quantity) →
      ((actions.foldl applyAction cart).map (fun item => item.id)).Nodup ∧
        ∀ item ∈ actions.foldl applyAction cart, 1 ≤ item.quantity := by
  induction actions with
  | nil => intro cart hnodup hq; exact ⟨hnodup, hq⟩
  | cons action rest ih =>
    intro cart hnodup hq
    simp only [List.foldl_cons]
    cases action with
    | add product =>
      obtain ⟨h₁, h₂⟩ := addToCart_ok cart product hnodup hq
      exact ih _ h₁ h₂
    | remove productId =>
      obtain ⟨h₁, h₂⟩ := removeFromCart_ok cart productId hnodup hq
      exact ih _ h₁ h₂
    | update productId quantity =>
      obtain ⟨h₁, h₂⟩ := updateQuantity_ok cart productId quantity hnodup hq
      exact ih _ h₁ h₂

/-- C27: after every sequence of `addToCart`, `removeFromCart` and
`updateQuantity` calls from the empty cart, no two entries of the cart have
the same product id and every entry has a quantity of at least 1. In such a
cart, `addToCart` of a product that has an entry leaves every other entry as
it is and adds 1 to the quantity of that entry, and `updateQuantity` with a
quantity below 1 removes the entry of that product and keeps the others. -/
theorem cart_invariant (actions : List CartAction) :
    ((runCart actions).map (fun item => item.id)).Nodup ∧
      (∀ item ∈ runCart actions, 1 ≤ item.quantity) ∧
      (∀ product : CartProduct, (∃ item ∈ runCart actions, item.id = product.id) →
        List.Forall₂
          (fun (before after : CartItem) =>
            (before.id = product.id →
              after = { before with quantity := before.quantity + 1 }) ∧
            (before.id ≠ product.id → after = before))
          (runCart actions) (addToCart (runCart actions) product)) ∧
      (∀ (productId : String) (quantity : Int), quantity < 1 →
        (∀ item ∈ updateQuantity (runCart actions) productId quantity, item.id ≠ productId) ∧
        (∀ item ∈ runCart actions, item.id ≠ productId →
          item ∈ updateQuantity (runCart actions) productId quantity) ∧
        (∀ item ∈ updateQuantity (runCart actions) productId quantity,
          item ∈ runCart actions)) := by
  obtain ⟨hnodup, hq⟩ := foldl_applyAction_ok actions [] (by simp) (by simp)
  refine ⟨hnodup, hq, ?_, ?_⟩
  · rintro product ⟨item, hitem, hid⟩
    unfold addToCart
    cases hfind : (runCart actions).find? (fun item => item.id == product.id) with
    | none =>
      have := List.find?_eq_none.mp hfind item hitem
      simp [hid] at this
    | some existing =>
      simp only [List.forall₂_map_right_iff, List.forall₂_same]
      intro before _
      by_cases h : before.id = product.id <;> simp [h]
  · intro productId quantity hlt
    simp only [updateQuantity, if_pos hlt, removeFromCart]
    refine ⟨?_, ?_, ?_⟩
    · intro item hitem
      simpa using (List.mem_filter.mp hitem).2
    · intro item hitem hne
      exact List.mem_filter.mpr ⟨hitem, by simpa using hne⟩
    · intro item hitem
      exact (List.mem_filter.mp hitem).1

/-- C27 (witness): adding `a`, `b`, `a` again and setting `b` to 0 gives a cart
with the single entry `a` at quantity 2; adding `a` once more makes it 3. -/
theorem cart_invariant_witness :
    runCart [.add ⟨"a", "A", 5⟩, .add ⟨"b", "B", 5⟩, .add ⟨"a", "A", 5⟩, .update "b" 0]
        = [{ id := "a", name := "A", stock := 5, quantity := 2 }] ∧
      ((runCart [.add ⟨"a", "A", 5⟩, .add ⟨"b", "B", 5⟩, .add ⟨"a", "A", 5⟩,
        .update "b" 0]).map (fun item => item.id)).Nodup ∧
      List.Forall₂
        (fun (before after : CartItem) =>
          (before.id = "a" → after = { before with quantity := before.quantity + 1 }) ∧
          (before.id ≠ "a" → after = before))
        (runCart [.add ⟨"a", "A", 5⟩, .add ⟨"b", "B", 5⟩, .add ⟨"a", "A", 5⟩, .update "b" 0])
        (addToCart (runCart [.add ⟨"a", "A", 5⟩, .add ⟨"b", "B", 5⟩, .add ⟨"a", "A", 5⟩,
          .update "b" 0]) ⟨"a", "A", 5⟩) :=
  have h := cart_invariant [.add ⟨"a", "A", 5⟩, .add ⟨"b", "B", 5⟩, .add ⟨"a", "A", 5⟩,
    .update "b" 0]
  ⟨by decide, h.1, h.2.2.1 ⟨"a", "A", 5⟩ ⟨⟨"a", "A", 5, 2⟩, by decide, rfl⟩⟩

end OrderService
